import Mathlib

/-!
# MISProject: the game core of `js/game.js`

A shallow embedding of the frame loop of the side-scroller in `js/game.js`
(`setupGame`, `flap`, `generatePipe`, `showGameOver`, `update`, `gameLoop`)
and theorems about it.

Modelling choices.

* The functions are embedded twice. In the first embedding (`update` and the
  functions it calls) JavaScript numbers are exact rationals (`ℚ`); it agrees
  with the source whenever the sums the source computes are representable as
  doubles, as they are for multiples of 1/2 below `2 ^ 52`, the numbers of a
  game on a canvas of integer size. In the second (`update64`) every `+`, `-`
  and `*` is rounded to the nearest double; the claims whose truth depends
  on rounding, C1 and C3, are settled there. The counters `score` and
  `frameCount`, which only ever hold non-negative integers, are natural
  numbers in both.
* The module-level variables `bird`, `pipes`, `score`, `gameOver`,
  `frameCount` and the three DOM nodes the logic writes to are the fields of
  one record, `GameState`, which every function takes and returns.
* The canvas (its `width` and `height`) is configuration that comes from the
  page, so it is a parameter, and so is the value `r` returned by
  `Math.random()`.
* Reading `pipes[i]` at an index outside the array gives `undefined`, and the
  next property access throws; the loop body therefore returns an `Option`,
  and `none` stands for that exception.
* `draw` writes to the canvas only and `requestAnimationFrame` hands control
  to the browser; neither touches the state, so `gameLoop` is one `update`.
-/

namespace MISProject

/-! ## Data model -/

/-- The canvas dimensions, read from the page. -/
structure Canvas where
  width : ℚ
  height : ℚ
deriving DecidableEq, Repr

/-- The object stored in the variable `bird`. -/
structure Bird where
  x : ℚ
  y : ℚ
  width : ℚ
  height : ℚ
  velocity : ℚ
deriving DecidableEq, Repr

/-- One element of the array `pipes`. -/
structure Pipe where
  x : ℚ
  topHeight : ℚ
  bottomY : ℚ
  passed : Bool
deriving DecidableEq, Repr

/-- The mutable variables of the game together with the DOM nodes it writes:
`scoreDisplay` is the number `n` shown as the text `Score: n`,
`finalScoreDisplay` the number written to the node `finalScore`, and
`gameOverScreenShown` tells whether the style of `gameOverScreen` is `flex`
(shown) or `none` (hidden). -/
structure GameState where
  bird : Bird
  pipes : List Pipe
  score : Nat
  gameOver : Bool
  frameCount : Nat
  scoreDisplay : Nat
  finalScoreDisplay : Nat
  gameOverScreenShown : Bool
deriving DecidableEq, Repr

/-! ## Game settings -/

def birdSizeWidth : ℚ := 35
def birdSizeHeight : ℚ := 30
def birdStartX : ℚ := 80
def birdStartY : ℚ := 250
def gravity : ℚ := 1 / 2
def lift : ℚ := -9
def pipeWidth : ℚ := 60
def pipeGap : ℚ := 150
def pipeSpeed : ℚ := 3
def pipeInterval : Nat := 100

/-! ## Game functions -/

/-- The body of `flap`. -/
def flap (s : GameState) : GameState :=
  if !s.gameOver then { s with bird := { s.bird with velocity := lift } } else s

/-- The body of `generatePipe`; `r` is the value of `Math.random()`. -/
def generatePipe (cv : Canvas) (r : ℚ) (s : GameState) : GameState :=
  let minHeight : ℚ := 50
  let maxHeight : ℚ := cv.height - pipeGap - minHeight
  let topHeight : ℚ := ((⌊r * (maxHeight - minHeight + 1)⌋ : ℤ) : ℚ) + minHeight
  { s with pipes := s.pipes ++
      [{ x := cv.width, topHeight := topHeight, bottomY := topHeight + pipeGap,
         passed := false }] }

/-- The body of `showGameOver`. -/
def showGameOver (s : GameState) : GameState :=
  { s with gameOver := true, finalScoreDisplay := s.score, gameOverScreenShown := true }

/-- The condition of the `if` under `Collision: Pipes`, for the pipe as it
stands after `pipe.x -= pipeSpeed`, the three sums exact; `pipeCollision64`
is the same test with the sums rounded. -/
def pipeCollision (b : Bird) (pipe : Pipe) : Bool :=
  decide (b.x < pipe.x + pipeWidth) &&
  decide (b.x + b.width > pipe.x) &&
  (decide (b.y < pipe.topHeight) || decide (b.y + b.height > pipe.bottomY))

/-- One pass through the body of the `for` loop of `update`, at index `i`.
`none` is the exception raised when `pipes[i]` is `undefined`. -/
def pipeBody (i : Nat) (s : GameState) : Option GameState :=
  match s.pipes[i]? with
  | none => none
  | some pipe0 =>
    -- pipe.x -= pipeSpeed
    let pipe1 : Pipe := { pipe0 with x := pipe0.x - pipeSpeed }
    let s1 : GameState := { s with pipes := s.pipes.set i pipe1 }
    -- Collision: Pipes
    let s2 : GameState := if pipeCollision s1.bird pipe1 then showGameOver s1 else s1
    -- Scoring
    let scored : Bool := decide (pipe1.x + pipeWidth < s2.bird.x) && !pipe1.passed
    let pipe2 : Pipe := if scored then { pipe1 with passed := true } else pipe1
    let s3 : GameState :=
      if scored then
        { s2 with score := s2.score + 1, pipes := s2.pipes.set i pipe2,
                  scoreDisplay := s2.score + 1 }
      else s2
    -- Remove Off-screen Pipes
    let s4 : GameState :=
      if pipe2.x + pipeWidth < 0 then { s3 with pipes := s3.pipes.eraseIdx i } else s3
    some s4

/-- The loop `for (let i = n - 1; i >= 0; i--)`: the body runs at the indices
`n - 1`, `n - 2`, ..., `0`, in that order. -/
def pipeLoop : Nat → GameState → Option GameState
  | 0, s => some s
  | n + 1, s => (pipeBody n s).bind (pipeLoop n)

/-- The statements of `update` under `Bird Physics`, `Collision: Ground` and
`Collision: Sky`, the sums exact; `birdPhysics64` is the same statements with
the sums rounded. -/
def birdPhysics (cv : Canvas) (s : GameState) : GameState :=
  -- bird.velocity += gravity
  let s1 : GameState := { s with bird := { s.bird with velocity := s.bird.velocity + gravity } }
  -- bird.y += bird.velocity
  let s2 : GameState := { s1 with bird := { s1.bird with y := s1.bird.y + s1.bird.velocity } }
  -- Collision: Ground
  let s3 : GameState :=
    if s2.bird.y + s2.bird.height > cv.height then
      showGameOver
        { s2 with bird := { s2.bird with y := cv.height - s2.bird.height, velocity := 0 } }
    else s2
  -- Collision: Sky
  if s3.bird.y < 0 then { s3 with bird := { s3.bird with y := 0, velocity := 0 } } else s3

/-- The statements of `update` from `frameCount++` to the call of
`generatePipe`. -/
def pipeSpawn (cv : Canvas) (r : ℚ) (s : GameState) : GameState :=
  let s1 : GameState := { s with frameCount := s.frameCount + 1 }
  if s1.frameCount % pipeInterval = 0 then generatePipe cv r s1 else s1

/-- The body of `update`. -/
def update (cv : Canvas) (r : ℚ) (s : GameState) : Option GameState :=
  if s.gameOver then some s
  else
    let s1 := pipeSpawn cv r (birdPhysics cv s)
    pipeLoop s1.pipes.length s1

/-- The body of `gameLoop`: `update`, then `draw` (canvas only). -/
def gameLoop (cv : Canvas) (r : ℚ) (s : GameState) : Option GameState :=
  update cv r s

/-- The assignments of `setupGame` that come before the call of `gameLoop`. -/
def setupGameInit (s : GameState) : GameState :=
  { s with
    bird := { x := birdStartX, y := birdStartY, width := birdSizeWidth,
              height := birdSizeHeight, velocity := 0 }
    pipes := []
    score := 0
    gameOver := false
    frameCount := 0
    scoreDisplay := 0
    gameOverScreenShown := false }

/-- The body of `setupGame`: the assignments, then `gameLoop()`. -/
def setupGame (cv : Canvas) (r : ℚ) (s : GameState) : Option GameState :=
  gameLoop cv r (setupGameInit s)

/-- A sequence of calls of `update`, one per element of `rs`, the draws of
`Math.random()`. -/
def updates (cv : Canvas) : List ℚ → GameState → Option GameState
  | [], s => some s
  | r :: rs, s => (update cv r s).bind (updates cv rs)

/-! ## The same functions in double arithmetic

The functions above compute with exact rationals. JavaScript numbers are
binary64 doubles, and every `+` and `-` of the source rounds its exact result
to the nearest double, the one with the even significand when halfway. The
functions below are the same statements with that rounding written out. The
two agree whenever the sums are representable, as they are for multiples of
1/2 below `2 ^ 52`; they differ when a sum falls between two doubles. Only
finite values are modelled: a sum whose magnitude reaches `2 ^ 1024` is
Infinity in binary64 and is rounded here with the same 53 bits instead. -/

/-- The number of times `n` can be halved before it is below 2, in at most
`fuel` steps. -/
def halvings : Nat → Nat → Nat
  | 0, _ => 0
  | fuel + 1, n => if n < 2 then 0 else halvings fuel (n / 2) + 1

/-- The position of the leading bit of `n`:
`2 ^ natLog2 n <= n < 2 ^ (natLog2 n + 1)` for `n` not 0. -/
def natLog2 (n : Nat) : Nat := halvings n n

/-- The integer `e` with `2 ^ e <= |x| < 2 ^ (e + 1)`, for `x` not 0: the
difference of the leading bits of numerator and denominator, or one less. -/
def log2Floor (x : ℚ) : ℤ :=
  let k : ℤ := (natLog2 x.num.natAbs : ℤ) - (natLog2 x.den : ℤ)
  if (2 : ℚ) ^ k ≤ |x| then k else k - 1

/-- The integer nearest to `m`, the even one of the two when `m` is halfway
between them. -/
def roundHalfEven (m : ℚ) : ℤ :=
  if m - (⌊m⌋ : ℤ) < 1 / 2 then ⌊m⌋
  else if 1 / 2 < m - (⌊m⌋ : ℤ) then ⌊m⌋ + 1
  else if ⌊m⌋ % 2 = 0 then ⌊m⌋ else ⌊m⌋ + 1

/-- The double nearest to `x`, ties to even: `x` is rounded to a multiple of
`2 ^ (e - 52)`, where `2 ^ e <= |x| < 2 ^ (e + 1)` and `e` is at least -1022
(below that the doubles are the multiples of `2 ^ -1074`). -/
def fl64 (x : ℚ) : ℚ :=
  if x = 0 then 0
  else
    let ulp : ℚ := (2 : ℚ) ^ (max (log2Floor x) (-1022) - 52)
    (roundHalfEven (x / ulp) : ℚ) * ulp

/-- The body of `generatePipe`, every operation rounded. -/
def generatePipe64 (cv : Canvas) (r : ℚ) (s : GameState) : GameState :=
  let minHeight : ℚ := 50
  let maxHeight : ℚ := fl64 (fl64 (cv.height - pipeGap) - minHeight)
  let topHeight : ℚ :=
    fl64 (((⌊fl64 (r * fl64 (fl64 (maxHeight - minHeight) + 1))⌋ : ℤ) : ℚ) + minHeight)
  { s with pipes := s.pipes ++
      [{ x := cv.width, topHeight := topHeight, bottomY := fl64 (topHeight + pipeGap),
         passed := false }] }

/-- The condition of the `if` under `Collision: Pipes`, the three sums
rounded. -/
def pipeCollision64 (b : Bird) (pipe : Pipe) : Bool :=
  decide (b.x < fl64 (pipe.x + pipeWidth)) &&
  decide (fl64 (b.x + b.width) > pipe.x) &&
  (decide (b.y < pipe.topHeight) || decide (fl64 (b.y + b.height) > pipe.bottomY))

/-- One pass through the body of the `for` loop of `update`, at index `i`,
every operation rounded. -/
def pipeBody64 (i : Nat) (s : GameState) : Option GameState :=
  match s.pipes[i]? with
  | none => none
  | some pipe0 =>
    -- pipe.x -= pipeSpeed
    let pipe1 : Pipe := { pipe0 with x := fl64 (pipe0.x - pipeSpeed) }
    let s1 : GameState := { s with pipes := s.pipes.set i pipe1 }
    -- Collision: Pipes
    let s2 : GameState := if pipeCollision64 s1.bird pipe1 then showGameOver s1 else s1
    -- Scoring
    let scored : Bool := decide (fl64 (pipe1.x + pipeWidth) < s2.bird.x) && !pipe1.passed
    let pipe2 : Pipe := if scored then { pipe1 with passed := true } else pipe1
    let s3 : GameState :=
      if scored then
        { s2 with score := s2.score + 1, pipes := s2.pipes.set i pipe2,
                  scoreDisplay := s2.score + 1 }
      else s2
    -- Remove Off-screen Pipes
    let s4 : GameState :=
      if fl64 (pipe2.x + pipeWidth) < 0 then { s3 with pipes := s3.pipes.eraseIdx i } else s3
    some s4

/-- The loop `for (let i = n - 1; i >= 0; i--)` over `pipeBody64`. -/
def pipeLoop64 : Nat → GameState → Option GameState
  | 0, s => some s
  | n + 1, s => (pipeBody64 n s).bind (pipeLoop64 n)

/-- The statements of `update` under `Bird Physics`, `Collision: Ground` and
`Collision: Sky`, every operation rounded. -/
def birdPhysics64 (cv : Canvas) (s : GameState) : GameState :=
  -- bird.velocity += gravity
  let s1 : GameState :=
    { s with bird := { s.bird with velocity := fl64 (s.bird.velocity + gravity) } }
  -- bird.y += bird.velocity
  let s2 : GameState :=
    { s1 with bird := { s1.bird with y := fl64 (s1.bird.y + s1.bird.velocity) } }
  -- Collision: Ground
  let s3 : GameState :=
    if fl64 (s2.bird.y + s2.bird.height) > cv.height then
      showGameOver
        { s2 with bird := { s2.bird with y := fl64 (cv.height - s2.bird.height),
                                         velocity := 0 } }
    else s2
  -- Collision: Sky
  if s3.bird.y < 0 then { s3 with bird := { s3.bird with y := 0, velocity := 0 } } else s3

/-- The statements of `update` from `frameCount++` to the call of
`generatePipe`, with `generatePipe64`. -/
def pipeSpawn64 (cv : Canvas) (r : ℚ) (s : GameState) : GameState :=
  let s1 : GameState := { s with frameCount := s.frameCount + 1 }
  if s1.frameCount % pipeInterval = 0 then generatePipe64 cv r s1 else s1

/-- The body of `update`, every operation rounded. -/
def update64 (cv : Canvas) (r : ℚ) (s : GameState) : Option GameState :=
  if s.gameOver then some s
  else
    let s1 := pipeSpawn64 cv r (birdPhysics64 cv s)
    pipeLoop64 s1.pipes.length s1

/-- The array `pipes` when the loop of `update64` starts. -/
def framePipes64 (cv : Canvas) (r : ℚ) (s : GameState) : List Pipe :=
  (pipeSpawn64 cv r (birdPhysics64 cv s)).pipes

/-- The pipe after `pipe.x -= pipeSpeed`, rounded. -/
def moved64 (p : Pipe) : Pipe := { p with x := fl64 (p.x - pipeSpeed) }

/-- The pipe at the end of a frame of `update64`. -/
def afterFrame64 (b : Bird) (p : Pipe) : Pipe :=
  { moved64 p with
    passed := p.passed || decide (fl64 ((moved64 p).x + pipeWidth) < b.x) }

/-- The pipe stays in the list in `update64`. -/
def onScreen64 (p : Pipe) : Bool := decide (0 ≤ fl64 (p.x + pipeWidth))

/-- What one pass of the body of the loop of `update64` does to everything
but the array. -/
def pipeEffect64 (p : Pipe) (s : GameState) : GameState :=
  let s2 : GameState := if pipeCollision64 s.bird (moved64 p) then showGameOver s else s
  if decide (fl64 ((moved64 p).x + pipeWidth) < s.bird.x) && !p.passed then
    { s2 with score := s2.score + 1, scoreDisplay := s2.score + 1 }
  else s2

/-- The number `x` is a multiple of 1/2 of magnitude at most `B / 2`. -/
def onHalfGrid (B : ℤ) (x : ℚ) : Prop := ∃ n : ℤ, |n| ≤ B ∧ x = (n : ℚ) / 2

/-! ## Functional description of one frame -/

/-- The pipe after `pipe.x -= pipeSpeed`. -/
def moved (p : Pipe) : Pipe := { p with x := p.x - pipeSpeed }

/-- The pipe is scored in this frame: not yet passed, and its right edge
after the move is strictly left of the bird. -/
def scoresNow (b : Bird) (p : Pipe) : Bool :=
  decide ((moved p).x + pipeWidth < b.x) && !p.passed

/-- The pipe at the end of the frame: moved, and marked passed when it was
already marked or its right edge is now strictly left of the bird. -/
def afterFrame (b : Bird) (p : Pipe) : Pipe :=
  { moved p with passed := p.passed || decide ((moved p).x + pipeWidth < b.x) }

/-- The right edge of the pipe is not left of the left edge of the canvas. -/
def onScreen (p : Pipe) : Bool := decide (0 ≤ p.x + pipeWidth)

/-- What one pass of the loop body does to everything but the array. -/
def pipeEffect (p : Pipe) (s : GameState) : GameState :=
  let s2 : GameState := if pipeCollision s.bird (moved p) then showGameOver s else s
  if scoresNow s.bird p then
    { s2 with score := s2.score + 1, scoreDisplay := s2.score + 1 }
  else s2

/-- The array `pipes` when the loop starts: the pipes of the state and, in a
frame whose count is a multiple of `pipeInterval`, the one `generatePipe`
has just pushed. -/
def framePipes (cv : Canvas) (r : ℚ) (s : GameState) : List Pipe :=
  (pipeSpawn cv r (birdPhysics cv s)).pipes

/-! ## Rectangles -/

/-- The closed rectangle `[x0, x1] x [y0, y1]`. -/
structure Rect where
  x0 : ℚ
  x1 : ℚ
  y0 : ℚ
  y1 : ℚ
deriving DecidableEq, Repr

/-- Two rectangles overlap with positive area: their intersection
`[max x0, min x1] x [max y0, min y1]` has positive width and height. -/
def Rect.overlaps (a b : Rect) : Prop :=
  max a.x0 b.x0 < min a.x1 b.x1 ∧ max a.y0 b.y0 < min a.y1 b.y1

instance (a b : Rect) : Decidable (a.overlaps b) := by
  unfold Rect.overlaps
  exact inferInstance

/-- The rectangle of the bird, `[x, x + width] x [y, y + height]`. -/
def birdRect (b : Bird) : Rect :=
  { x0 := b.x, x1 := b.x + b.width, y0 := b.y, y1 := b.y + b.height }

/-- The rectangle of the top pipe, `[x, x + pipeWidth] x [0, topHeight]`. -/
def topRect (p : Pipe) : Rect :=
  { x0 := p.x, x1 := p.x + pipeWidth, y0 := 0, y1 := p.topHeight }

/-- The rectangle of the bottom pipe,
`[x, x + pipeWidth] x [bottomY, canvas.height]`. -/
def bottomRect (cv : Canvas) (p : Pipe) : Rect :=
  { x0 := p.x, x1 := p.x + pipeWidth, y0 := p.bottomY, y1 := cv.height }

/-! ## Example states -/

def exCanvas : Canvas := { width := 400, height := 500 }

/-- A running game with one pipe about to leave the canvas, one that stays
and one ahead of the bird. -/
def exState : GameState :=
  { bird := { x := 80, y := 250, width := 35, height := 30, velocity := 0 }
    pipes := [{ x := -58, topHeight := 100, bottomY := 250, passed := true },
              { x := -2, topHeight := 100, bottomY := 250, passed := true },
              { x := 200, topHeight := 60, bottomY := 210, passed := false }]
    score := 2, gameOver := false, frameCount := 7, scoreDisplay := 2,
    finalScoreDisplay := 0, gameOverScreenShown := false }

/-- A running game whose bird is level with the top pipe of the pipe it is
flying into. -/
def exHit : GameState :=
  { bird := { x := 80, y := 40, width := 35, height := 30, velocity := 0 }
    pipes := [{ x := 100, topHeight := 120, bottomY := 270, passed := false }]
    score := 0, gameOver := false, frameCount := 120, scoreDisplay := 0,
    finalScoreDisplay := 0, gameOverScreenShown := false }

/-- A running game whose bird flies through the gap of a pipe, and has a
pipe behind it that is not yet marked. -/
def exGap : GameState :=
  { bird := { x := 80, y := 150, width := 35, height := 30, velocity := -1 }
    pipes := [{ x := 22, topHeight := 80, bottomY := 230, passed := false },
              { x := 100, topHeight := 120, bottomY := 270, passed := false }]
    score := 0, gameOver := false, frameCount := 130, scoreDisplay := 0,
    finalScoreDisplay := 0, gameOverScreenShown := false }

/-- A running game whose bird comes to rest exactly on the ground in the next
frame: `469.5 + 0.5 + 30 = 500`. -/
def exGround : GameState :=
  { bird := { x := 80, y := 939 / 2, width := 35, height := 30, velocity := 0 }
    pipes := []
    score := 0, gameOver := false, frameCount := 40, scoreDisplay := 0,
    finalScoreDisplay := 0, gameOverScreenShown := false }

/-- A running game whose bird falls through the ground in the next frame. -/
def exFall : GameState :=
  { bird := { x := 80, y := 465, width := 35, height := 30, velocity := 8 }
    pipes := []
    score := 0, gameOver := false, frameCount := 40, scoreDisplay := 0,
    finalScoreDisplay := 0, gameOverScreenShown := false }

/-- A finished game. -/
def exOver : GameState :=
  { bird := { x := 80, y := 470, width := 35, height := 30, velocity := 0 }
    pipes := [{ x := 10, topHeight := 100, bottomY := 250, passed := true },
              { x := 310, topHeight := 60, bottomY := 210, passed := false }]
    score := 1, gameOver := true, frameCount := 230, scoreDisplay := 1,
    finalScoreDisplay := 1, gameOverScreenShown := true }

/-- The state the assignments of `setupGame` leave: the bird at (80, 250)
with velocity 0. -/
def exStart : GameState := setupGameInit exOver

/-- A running game in which the bird falls through the ground in the frame
in which the pipe behind it is scored; the pipes are 300 apart and where the
frame count 225 puts them on a canvas 400 wide. -/
def exFallScore : GameState :=
  { bird := { x := 80, y := 465, width := 35, height := 30, velocity := 8 }
    pipes := [{ x := 22, topHeight := 80, bottomY := 230, passed := false },
              { x := 322, topHeight := 150, bottomY := 300, passed := false }]
    score := 0, gameOver := false, frameCount := 225, scoreDisplay := 0,
    finalScoreDisplay := 0, gameOverScreenShown := false }

/-- A running game in which the bird flies into the second pipe in the frame
in which the first pipe is scored. -/
def exHitScore : GameState :=
  { bird := { x := 80, y := 40, width := 35, height := 30, velocity := 0 }
    pipes := [{ x := 22, topHeight := 20, bottomY := 170, passed := false },
              { x := 100, topHeight := 120, bottomY := 270, passed := false }]
    score := 0, gameOver := false, frameCount := 140, scoreDisplay := 0,
    finalScoreDisplay := 0, gameOverScreenShown := false }

/-- A running game whose bird leaves the canvas at the top in the next
frame. -/
def exSky : GameState :=
  { bird := { x := 80, y := 3, width := 35, height := 30, velocity := -9 }
    pipes := [{ x := 300, topHeight := 120, bottomY := 270, passed := false }]
    score := 0, gameOver := false, frameCount := 130, scoreDisplay := 0,
    finalScoreDisplay := 0, gameOverScreenShown := false }

/-- A running game whose bird reaches `2 ^ -45` into the bottom pipe of the
pipe it overlaps horizontally: `230 + 2 ^ -45` is a double, and the sum
`230 + 2 ^ -45 + 30` is halfway between the doubles 260 and `260 + 2 ^ -44`. -/
def exTieHit : GameState :=
  { bird := { x := 80, y := 230 + 1 / 2 ^ 45, width := 35, height := 30, velocity := -1 / 2 }
    pipes := [{ x := 100, topHeight := 110, bottomY := 260, passed := false }]
    score := 0, gameOver := false, frameCount := 120, scoreDisplay := 0,
    finalScoreDisplay := 0, gameOverScreenShown := false }

/-- The canvas of the next example, 530 high. -/
def exCanvas530 : Canvas := { width := 400, height := 530 }

/-- A running game whose bird is `2 ^ -44` below the lowest position of the
canvas 530 high: `500 + 2 ^ -44` is a double, and the sum `500 + 2 ^ -44 + 30`
is halfway between the doubles 530 and `530 + 2 ^ -43`. -/
def exTieGround : GameState :=
  { bird := { x := 80, y := 500 + 1 / 2 ^ 44, width := 35, height := 30, velocity := -1 / 2 }
    pipes := []
    score := 0, gameOver := false, frameCount := 40, scoreDisplay := 0,
    finalScoreDisplay := 0, gameOverScreenShown := false }

/-! ## Sessions -/

/-- A call the page makes after `setupGame`: a frame (`update`, with the value
`Math.random()` returns if the frame asks for one) or a key press or click
(`flap`). -/
inductive Call where
  | update (r : ℚ)
  | flap
deriving DecidableEq, Repr

/-- One call. -/
def call (cv : Canvas) : Call → GameState → Option GameState
  | Call.update r, s => update cv r s
  | Call.flap, s => some (flap s)

/-- A sequence of calls, first to last. -/
def calls (cv : Canvas) : List Call → GameState → Option GameState
  | [], s => some s
  | c :: cs, s => (call cv c s).bind (calls cv cs)

/-- The state reached from `setupGame()`, called in the state `s0`, by the
calls `cs`. -/
def session (cv : Canvas) (r0 : ℚ) (s0 : GameState) (cs : List Call) : Option GameState :=
  (setupGame cv r0 s0).bind (calls cv cs)

/-- The pipe `b` is `pipeSpeed * pipeInterval` to the right of the pipe `a`. -/
def spaced (a b : Pipe) : Prop := b.x = a.x + pipeSpeed * (pipeInterval : ℚ)

/-- The pipe and the bird overlap horizontally: the first two conjuncts of
the collision test. -/
def horizontalOverlap (b : Bird) (p : Pipe) : Bool :=
  decide (b.x < p.x + pipeWidth) && decide (b.x + b.width > p.x)

/-- The number of pipes with `passed = false`. -/
def unpassedCount (ps : List Pipe) : Nat := ps.countP (fun p => !p.passed)

/-- What holds of the bird and the pipes in every state of a session. -/
structure SessionInv (cv : Canvas) (s : GameState) : Prop where
  bird_x : s.bird.x = birdStartX
  bird_width : s.bird.width = birdSizeWidth
  bird_height : s.bird.height = birdSizeHeight
  chain : s.pipes.Chain' spaced
  last_x : ∀ p ∈ s.pipes.getLast?,
    p.x = cv.width - pipeSpeed * (((s.frameCount % pipeInterval : ℕ) : ℚ) + 1)
  passed_iff : ∀ p ∈ s.pipes, (p.passed = true ↔ p.x + pipeWidth < s.bird.x)
  on_canvas : ∀ p ∈ s.pipes, 0 ≤ p.x + pipeWidth
  gap : ∀ p ∈ s.pipes, p.bottomY = p.topHeight + pipeGap
  score_eq : s.score + unpassedCount s.pipes = s.frameCount / pipeInterval
  length_le : s.pipes.length ≤ s.frameCount / pipeInterval

/-- The calls of an example session: a flap every 36th call with frames in
between, 229 frames in all, every draw 2/5. -/
def exCalls : List Call :=
  (List.replicate 6 (Call.flap :: List.replicate 35 (Call.update (2 / 5)))).flatten ++
    Call.flap :: List.replicate 19 (Call.update (2 / 5))

/-- The state the example session ends in, after 230 frames: the first pipe
is behind the bird and marked, the second is ahead. -/
def exLate : GameState :=
  { bird := { x := 80, y := 349 / 2, width := 35, height := 30, velocity := 1 / 2 }
    pipes := [{ x := 7, topHeight := 150, bottomY := 300, passed := true },
              { x := 307, topHeight := 150, bottomY := 300, passed := false }]
    score := 1, gameOver := false, frameCount := 230, scoreDisplay := 1,
    finalScoreDisplay := 1, gameOverScreenShown := false }

/-- A canvas narrower than the bird's `x`: a pipe generated at `x = 20` is
behind the bird as soon as it has moved. -/
def exNarrow : Canvas := { width := 20, height := 500 }

/-- The calls of a session that keeps the bird in the air for 98 frames after
`setupGame` and lets it reach the ground in the next one. -/
def exNarrowCalls : List Call :=
  List.replicate 12 (Call.update (2 / 5)) ++
    Call.flap :: List.replicate 41 (Call.update (2 / 5)) ++
    Call.flap :: List.replicate 45 (Call.update (2 / 5))

/-- The state that session ends in, with `frameCount = 99`; the final-score
node still shows the 1 of the game before. -/
def exNarrowPre : GameState :=
  { bird := { x := 80, y := 939 / 2, width := 35, height := 30, velocity := 27 / 2 }
    pipes := []
    score := 0, gameOver := false, frameCount := 99, scoreDisplay := 0,
    finalScoreDisplay := 1, gameOverScreenShown := false }

/-- The number of pipes scored after the last call of `showGameOver` in the
loop. The loop runs from the end of the list to its start, so the last call
made for a pipe is the one for the first pipe of the list that passes the
collision test, and the pipes handled after it are those before it; when no
pipe passes the test they are all the pipes. -/
def scoredAfterGameOver (b : Bird) (ps : List Pipe) : Nat :=
  (ps.takeWhile (fun p => !pipeCollision b (moved p))).countP (scoresNow b)

/-! ## The loop over the pipes -/

theorem set_at_length (pre suf : List Pipe) (p q : Pipe) :
    (pre ++ p :: suf).set pre.length q = pre ++ q :: suf := by
  induction pre with
  | nil => rfl
  | cons a l ih => simp [ih]

theorem eraseIdx_at_length (pre suf : List Pipe) (p : Pipe) :
    (pre ++ p :: suf).eraseIdx pre.length = pre ++ suf := by
  induction pre with
  | nil => rfl
  | cons a l ih => simp [ih]

theorem getElem?_at_length (pre suf : List Pipe) (p : Pipe) :
    (pre ++ p :: suf)[pre.length]? = some p := by
  rw [List.getElem?_append_right (le_refl _)]
  simp

theorem pipeBody_at (s : GameState) (pre suf : List Pipe) (p : Pipe)
    (h : s.pipes = pre ++ p :: suf) :
    pipeBody pre.length s =
      some { pipeEffect p s with
             pipes := pre ++ ((if onScreen (afterFrame s.bird p) then [afterFrame s.bird p] else [])
                        ++ suf) } := by
  obtain ⟨b, ps, sc, go, fc, sd, fd, gs⟩ := s
  obtain ⟨px, pt, pb, pp⟩ := p
  simp only at h
  subst h
  simp only [pipeBody, getElem?_at_length]
  have hkeep : (0 ≤ px - pipeSpeed + pipeWidth) ↔ ¬ (px - pipeSpeed + pipeWidth < 0) := not_lt.symm
  by_cases hc : pipeCollision b ⟨px - pipeSpeed, pt, pb, pp⟩ = true <;>
  by_cases hx : px - pipeSpeed + pipeWidth < b.x <;>
  by_cases hr : px - pipeSpeed + pipeWidth < 0 <;>
  cases pp <;>
  simp [pipeEffect, scoresNow, afterFrame, onScreen, moved, showGameOver, hc, hx, hr, hkeep,
    set_at_length, eraseIdx_at_length]


theorem pipeEffect_pipes (p : Pipe) (s : GameState) (l : List Pipe) :
    pipeEffect p { s with pipes := l } = { pipeEffect p s with pipes := l } := by
  unfold pipeEffect showGameOver
  dsimp only
  split_ifs <;> rfl

theorem foldr_pipeEffect_pipes (ps : List Pipe) (s : GameState) (l : List Pipe) :
    ps.foldr pipeEffect { s with pipes := l } = { ps.foldr pipeEffect s with pipes := l } := by
  induction ps with
  | nil => rfl
  | cons p ps ih => simp only [List.foldr_cons, ih, pipeEffect_pipes]

theorem pipeEffect_bird (p : Pipe) (s : GameState) : (pipeEffect p s).bird = s.bird := by
  unfold pipeEffect showGameOver
  dsimp only
  split_ifs <;> rfl

theorem foldr_pipeEffect_bird (ps : List Pipe) (s : GameState) :
    (ps.foldr pipeEffect s).bird = s.bird := by
  induction ps with
  | nil => rfl
  | cons p ps ih => simp only [List.foldr_cons, pipeEffect_bird, ih]

/-- The loop started at `n = pre.length` on the array `pre ++ suf` returns, and
the state it returns is the fold of `pipeEffect` over `pre` from the right,
with the array `pre` processed (moved, marked, filtered) in place. -/
theorem pipeLoop_append (pre : List Pipe) :
    ∀ (suf : List Pipe) (s : GameState), s.pipes = pre ++ suf →
      pipeLoop pre.length s =
        some { pre.foldr pipeEffect s with
               pipes := (pre.map (afterFrame s.bird)).filter onScreen ++ suf } := by
  induction pre using List.reverseRecOn with
  | nil =>
    intro suf s h
    simp only [List.length_nil, pipeLoop, List.foldr_nil, List.map_nil, List.filter_nil,
      List.nil_append]
    rw [← List.nil_append suf, ← h]
  | append_singleton pre p ih =>
    intro suf s h
    rw [List.append_assoc, List.singleton_append] at h
    rw [List.length_append, List.length_singleton, pipeLoop, pipeBody_at s pre suf p h,
      Option.some_bind, ih _ _ rfl, foldr_pipeEffect_pipes]
    have hb : (pipeEffect p s).bird = s.bird := pipeEffect_bird p s
    simp only [hb, List.foldr_append, List.foldr_cons, List.foldr_nil, List.map_append,
      List.map_cons, List.map_nil, List.filter_append, List.filter_cons, List.filter_nil,
      List.append_assoc]

theorem pipeEffect_frameCount (p : Pipe) (s : GameState) :
    (pipeEffect p s).frameCount = s.frameCount := by
  unfold pipeEffect showGameOver
  dsimp only
  split_ifs <;> rfl

theorem foldr_pipeEffect_frameCount (ps : List Pipe) (s : GameState) :
    (ps.foldr pipeEffect s).frameCount = s.frameCount := by
  induction ps with
  | nil => rfl
  | cons p ps ih => simp only [List.foldr_cons, pipeEffect_frameCount, ih]

theorem pipeEffect_score (p : Pipe) (s : GameState) :
    (pipeEffect p s).score = s.score + (if scoresNow s.bird p = true then 1 else 0) := by
  unfold pipeEffect showGameOver
  dsimp only
  split_ifs <;> rfl

theorem foldr_pipeEffect_score (ps : List Pipe) (s : GameState) :
    (ps.foldr pipeEffect s).score = s.score + ps.countP (scoresNow s.bird) := by
  induction ps with
  | nil => rfl
  | cons p ps ih =>
    rw [List.foldr_cons, pipeEffect_score, foldr_pipeEffect_bird, ih, List.countP_cons]
    omega

theorem pipeEffect_gameOver (p : Pipe) (s : GameState) :
    (pipeEffect p s).gameOver = (s.gameOver || pipeCollision s.bird (moved p)) := by
  unfold pipeEffect showGameOver
  dsimp only
  split_ifs with h1 h2 h2 <;> simp [h2]

theorem foldr_pipeEffect_gameOver (ps : List Pipe) (s : GameState) :
    (ps.foldr pipeEffect s).gameOver =
      (s.gameOver || ps.any (fun p => pipeCollision s.bird (moved p))) := by
  induction ps with
  | nil => simp
  | cons p ps ih =>
    rw [List.foldr_cons, pipeEffect_gameOver, foldr_pipeEffect_bird, ih, List.any_cons]
    cases s.gameOver <;> cases pipeCollision s.bird (moved p) <;> simp

/-! ## One frame -/

theorem pipeSpawn_bird (cv : Canvas) (r : ℚ) (s : GameState) :
    (pipeSpawn cv r s).bird = s.bird := by
  unfold pipeSpawn generatePipe
  dsimp only
  split_ifs <;> rfl

theorem pipeSpawn_score (cv : Canvas) (r : ℚ) (s : GameState) :
    (pipeSpawn cv r s).score = s.score := by
  unfold pipeSpawn generatePipe
  dsimp only
  split_ifs <;> rfl

theorem pipeSpawn_gameOver (cv : Canvas) (r : ℚ) (s : GameState) :
    (pipeSpawn cv r s).gameOver = s.gameOver := by
  unfold pipeSpawn generatePipe
  dsimp only
  split_ifs <;> rfl

theorem birdPhysics_score (cv : Canvas) (s : GameState) :
    (birdPhysics cv s).score = s.score := by
  unfold birdPhysics showGameOver
  dsimp only
  split_ifs <;> rfl

theorem birdPhysics_bird_x (cv : Canvas) (s : GameState) :
    (birdPhysics cv s).bird.x = s.bird.x := by
  unfold birdPhysics showGameOver
  dsimp only
  split_ifs <;> rfl

theorem birdPhysics_bird_height (cv : Canvas) (s : GameState) :
    (birdPhysics cv s).bird.height = s.bird.height := by
  unfold birdPhysics showGameOver
  dsimp only
  split_ifs <;> rfl

/-- A frame of a running game returns, and returns the fold of `pipeEffect`
over the pipes of the frame, applied to the state after the physics and the
spawn, with every pipe moved, marked and filtered. -/
theorem update_running (cv : Canvas) (r : ℚ) (s : GameState) (h : s.gameOver = false) :
    update cv r s =
      some { (framePipes cv r s).foldr pipeEffect (pipeSpawn cv r (birdPhysics cv s)) with
             pipes := ((framePipes cv r s).map
                        (afterFrame (birdPhysics cv s).bird)).filter onScreen } := by
  unfold update
  rw [h]
  simp only [Bool.false_eq_true, if_false]
  have key := pipeLoop_append (framePipes cv r s) [] (pipeSpawn cv r (birdPhysics cv s))
    (by simp [framePipes])
  rw [pipeSpawn_bird, List.append_nil] at key
  exact key

theorem update_running_bird (cv : Canvas) (r : ℚ) (s s' : GameState)
    (h : s.gameOver = false) (hs : update cv r s = some s') :
    s'.bird = (birdPhysics cv s).bird := by
  rw [update_running cv r s h] at hs
  cases hs
  simp only [foldr_pipeEffect_bird, pipeSpawn_bird]

theorem update_running_gameOver (cv : Canvas) (r : ℚ) (s s' : GameState)
    (h : s.gameOver = false) (hs : update cv r s = some s') :
    s'.gameOver = ((birdPhysics cv s).gameOver ||
      (framePipes cv r s).any (fun p => pipeCollision (birdPhysics cv s).bird (moved p))) := by
  rw [update_running cv r s h] at hs
  cases hs
  simp only [foldr_pipeEffect_gameOver, pipeSpawn_bird, pipeSpawn_gameOver]

theorem pipeCollision_of_overlaps (cv : Canvas) (b : Bird) (p : Pipe)
    (h : (birdRect b).overlaps (topRect p) ∨ (birdRect b).overlaps (bottomRect cv p)) :
    pipeCollision b p = true := by
  simp only [Rect.overlaps, birdRect, topRect, bottomRect, max_lt_iff, lt_min_iff] at h
  simp only [pipeCollision, Bool.and_eq_true, Bool.or_eq_true, decide_eq_true_eq, gt_iff_lt]
  rcases h with h | h
  · exact ⟨⟨h.1.2.1, h.1.1.2⟩, Or.inl h.2.2.1⟩
  · exact ⟨⟨h.1.2.1, h.1.1.2⟩, Or.inr h.2.1.2⟩

theorem pipeCollision_false_of_gap (b : Bird) (p : Pipe)
    (h1 : p.topHeight ≤ b.y) (h2 : b.y + b.height ≤ p.bottomY) :
    pipeCollision b p = false := by
  have e1 : decide (b.y < p.topHeight) = false := decide_eq_false (not_lt.mpr h1)
  have e2 : decide (b.y + b.height > p.bottomY) = false := decide_eq_false (not_lt.mpr h2)
  simp only [pipeCollision, e1, e2, Bool.or_self, Bool.and_false]

theorem birdPhysics_gameOver_of_le (cv : Canvas) (s : GameState) (h : s.gameOver = false)
    (hg : s.bird.y + (s.bird.velocity + gravity) + s.bird.height ≤ cv.height) :
    (birdPhysics cv s).gameOver = false := by
  unfold birdPhysics
  dsimp only
  rw [if_neg (not_lt.mpr hg)]
  split_ifs <;> exact h

theorem birdPhysics_of_gt (cv : Canvas) (s : GameState)
    (hg : s.bird.y + (s.bird.velocity + gravity) + s.bird.height > cv.height) :
    (birdPhysics cv s).gameOver = true ∧ (birdPhysics cv s).bird.velocity = 0 := by
  unfold birdPhysics
  dsimp only
  rw [if_pos hg]
  unfold showGameOver
  dsimp only
  split_ifs <;> exact ⟨rfl, rfl⟩

theorem birdPhysics_y_bounds (cv : Canvas) (s : GameState) (hH : s.bird.height ≤ cv.height) :
    0 ≤ (birdPhysics cv s).bird.y ∧ (birdPhysics cv s).bird.y ≤ cv.height - s.bird.height := by
  unfold birdPhysics showGameOver
  dsimp only
  split_ifs with h1 h2 h2 <;> dsimp only at * <;> constructor <;> linarith

theorem birdPhysics_free (cv : Canvas) (s : GameState)
    (h0 : 0 ≤ s.bird.y + (s.bird.velocity + gravity))
    (hg : s.bird.y + (s.bird.velocity + gravity) + s.bird.height ≤ cv.height) :
    (birdPhysics cv s).bird =
      { s.bird with velocity := s.bird.velocity + gravity,
                    y := s.bird.y + (s.bird.velocity + gravity) } := by
  unfold birdPhysics
  dsimp only
  rw [if_neg (not_lt.mpr hg)]
  dsimp only
  rw [if_neg (not_lt.mpr h0)]

theorem birdPhysics_frameCount (cv : Canvas) (s : GameState) :
    (birdPhysics cv s).frameCount = s.frameCount := by
  unfold birdPhysics showGameOver
  dsimp only
  split_ifs <;> rfl

theorem birdPhysics_pipes (cv : Canvas) (s : GameState) :
    (birdPhysics cv s).pipes = s.pipes := by
  unfold birdPhysics showGameOver
  dsimp only
  split_ifs <;> rfl

theorem pipeSpawn_frameCount (cv : Canvas) (r : ℚ) (s : GameState) :
    (pipeSpawn cv r s).frameCount = s.frameCount + 1 := by
  unfold pipeSpawn generatePipe
  dsimp only
  split_ifs <;> rfl

theorem update_running_frameCount (cv : Canvas) (r : ℚ) (s s' : GameState)
    (h : s.gameOver = false) (hs : update cv r s = some s') :
    s'.frameCount = s.frameCount + 1 := by
  rw [update_running cv r s h] at hs
  cases hs
  simp only [foldr_pipeEffect_frameCount, pipeSpawn_frameCount, birdPhysics_frameCount]

theorem framePipes_of_not_multiple (cv : Canvas) (r : ℚ) (s : GameState)
    (h : (s.frameCount + 1) % pipeInterval ≠ 0) : framePipes cv r s = s.pipes := by
  unfold framePipes pipeSpawn
  dsimp only
  rw [birdPhysics_frameCount, if_neg h]
  exact birdPhysics_pipes cv s

theorem update_running_score (cv : Canvas) (r : ℚ) (s s' : GameState)
    (h : s.gameOver = false) (hs : update cv r s = some s') :
    s'.score = s.score + (framePipes cv r s).countP (scoresNow s.bird) := by
  rw [update_running cv r s h] at hs
  cases hs
  simp only [foldr_pipeEffect_score, pipeSpawn_bird, pipeSpawn_score, birdPhysics_score]
  congr 1
  apply List.countP_congr
  intro p _
  simp only [scoresNow, birdPhysics_bird_x]

theorem update_running_pipes (cv : Canvas) (r : ℚ) (s s' : GameState)
    (h : s.gameOver = false) (hs : update cv r s = some s') :
    s'.pipes = ((framePipes cv r s).map (afterFrame s.bird)).filter onScreen := by
  rw [update_running cv r s h] at hs
  cases hs
  have e : afterFrame (birdPhysics cv s).bird = afterFrame s.bird := by
    funext p
    simp only [afterFrame, birdPhysics_bird_x]
  simp only [e]

theorem update_of_gameOver (cv : Canvas) (r : ℚ) (s : GameState) (h : s.gameOver = true) :
    update cv r s = some s := by
  unfold update
  rw [if_pos h]

/-! ## The claims -/

/-- C2: in a frame of a running game in which the physics step does not take
the ground branch, if the bird is vertically inside the gap of every pipe of
the frame (`topHeight <= bird.y` and `bird.y + height <= bottomY`), then
`update` returns with `gameOver` still false, wherever the pipes are
horizontally. -/
theorem update_inside_gap_keeps_running (cv : Canvas) (r : ℚ) (s : GameState)
    (h : s.gameOver = false)
    (hg : s.bird.y + (s.bird.velocity + gravity) + s.bird.height ≤ cv.height) :
    ∃ s', update cv r s = some s' ∧
      ((∀ p ∈ framePipes cv r s,
          p.topHeight ≤ s'.bird.y ∧ s'.bird.y + s'.bird.height ≤ p.bottomY) →
        s'.gameOver = false) := by
  obtain ⟨s', hs⟩ : ∃ s', update cv r s = some s' := ⟨_, update_running cv r s h⟩
  have hb := update_running_bird cv r s s' h hs
  refine ⟨s', hs, ?_⟩
  intro hall
  rw [update_running_gameOver cv r s s' h hs, birdPhysics_gameOver_of_le cv s h hg,
    Bool.false_or, List.any_eq_false]
  intro p hp
  rw [hb] at hall
  have hc := pipeCollision_false_of_gap (birdPhysics cv s).bird (moved p)
    (hall p hp).1 (hall p hp).2
  simp [hc]

/-- The frame of `exGap`, whose bird is inside the gap of both pipes, returns
with `gameOver` still false. -/
theorem update_inside_gap_keeps_running_witness :
    exGap.gameOver = false ∧
      exGap.bird.y + (exGap.bird.velocity + gravity) + exGap.bird.height ≤ exCanvas.height ∧
      ∃ s', update exCanvas 0 exGap = some s' ∧ s'.gameOver = false := by
  have hg : exGap.bird.y + (exGap.bird.velocity + gravity) + exGap.bird.height
      ≤ exCanvas.height := by decide!
  obtain ⟨s', hs, himp⟩ := update_inside_gap_keeps_running exCanvas 0 exGap rfl hg
  refine ⟨rfl, hg, s', hs, himp ?_⟩
  rw [update_running_bird exCanvas 0 exGap s' rfl hs]
  decide!

/-- C4, as the code has it: in a frame of a running game, if after gravity
is added to the velocity and the velocity to `y` the bird has
`y + height > canvas.height`, strictly, then `update` returns with `gameOver`
set and the velocity of the bird 0. -/
theorem update_ground_strict (cv : Canvas) (r : ℚ) (s : GameState)
    (h : s.gameOver = false)
    (hg : s.bird.y + (s.bird.velocity + gravity) + s.bird.height > cv.height) :
    ∃ s', update cv r s = some s' ∧ s'.gameOver = true ∧ s'.bird.velocity = 0 := by
  obtain ⟨s', hs⟩ : ∃ s', update cv r s = some s' := ⟨_, update_running cv r s h⟩
  have hp := birdPhysics_of_gt cv s hg
  refine ⟨s', hs, ?_, ?_⟩
  · rw [update_running_gameOver cv r s s' h hs, hp.1, Bool.true_or]
  · rw [update_running_bird cv r s s' h hs]
    exact hp.2

/-- The frame of `exFall` ends the game and stops the bird. -/
theorem update_ground_strict_witness :
    exFall.gameOver = false ∧
      exFall.bird.y + (exFall.bird.velocity + gravity) + exFall.bird.height > exCanvas.height ∧
      ∃ s', update exCanvas 0 exFall = some s' ∧ s'.gameOver = true ∧ s'.bird.velocity = 0 :=
  ⟨rfl, by decide!, update_ground_strict exCanvas 0 exFall rfl (by decide!)⟩

/-- C4 as stated fails at equality: the bird of `exGround` ends the physics
step with `y + height = 470 + 30 = canvas.height`, and `update` returns with
`gameOver` false and the velocity 1/2. -/
theorem update_ground_equality_counterexample :
    exGround.gameOver = false ∧
      exGround.bird.y + (exGround.bird.velocity + gravity) + exGround.bird.height
        ≥ exCanvas.height ∧
      (update exCanvas 0 exGround).map (fun s' => (s'.gameOver, s'.bird.velocity, s'.bird.y))
        = some (false, 1 / 2, 470) := by
  decide!

/-- C5: in a frame of a running game, `update` returns with the score
increased by exactly the number of pipes of the frame that have
`passed = false` and whose right edge after the move is strictly left of the
bird; each pipe that stays in the list is the moved pipe with `passed` set
when it was set before or when its right edge is now strictly left of the
bird, so a set flag is never cleared and a pipe already marked adds nothing. -/
theorem update_score_counts_newly_passed (cv : Canvas) (r : ℚ) (s : GameState)
    (h : s.gameOver = false) :
    ∃ s', update cv r s = some s' ∧
      s'.score = s.score + (framePipes cv r s).countP
        (fun p => !p.passed && decide (p.x - pipeSpeed + pipeWidth < s.bird.x)) ∧
      s'.pipes = ((framePipes cv r s).map
        (fun p => { p with x := p.x - pipeSpeed,
                           passed := p.passed ||
                             decide (p.x - pipeSpeed + pipeWidth < s.bird.x) })).filter
        (fun q => decide (0 ≤ q.x + pipeWidth)) ∧
      ∀ q ∈ s'.pipes, q.x + pipeWidth < s.bird.x → q.passed = true := by
  obtain ⟨s', hs⟩ : ∃ s', update cv r s = some s' := ⟨_, update_running cv r s h⟩
  have hp := update_running_pipes cv r s s' h hs
  refine ⟨s', hs, ?_, hp, ?_⟩
  · rw [update_running_score cv r s s' h hs]
    congr 1
    apply List.countP_congr
    intro p _
    simp only [scoresNow, moved, Bool.and_comm]
  · intro q hq hx
    rw [hp, List.mem_filter, List.mem_map] at hq
    obtain ⟨⟨p, _, rfl⟩, _⟩ := hq
    simp only [afterFrame, moved] at hx ⊢
    simp [hx]

/-- The frame of `exGap` scores the pipe whose right edge moves from 82 to
79, left of the bird at 80, and marks it. -/
theorem update_score_counts_newly_passed_witness :
    exGap.gameOver = false ∧
      ∃ s', update exCanvas 0 exGap = some s' ∧ s'.score = 1 ∧
        s'.pipes = [{ x := 19, topHeight := 80, bottomY := 230, passed := true },
                    { x := 97, topHeight := 120, bottomY := 270, passed := false }] := by
  obtain ⟨s', hs, hscore, hpipes, _⟩ := update_score_counts_newly_passed exCanvas 0 exGap rfl
  refine ⟨rfl, s', hs, ?_, ?_⟩
  · rw [hscore]
    decide!
  · rw [hpipes]
    decide!

/-- C6: in a frame of a running game, `update` returns with the list of the
pipes of the frame (one generated in this frame included), each moved left by
`pipeSpeed` (and marked), filtered in the same order by
`x + pipeWidth >= 0`: a pipe of the frame is in the list after the frame if
and only if its new right edge is not negative. -/
theorem update_pipes_filter_onScreen (cv : Canvas) (r : ℚ) (s : GameState)
    (h : s.gameOver = false) :
    ∃ s', update cv r s = some s' ∧
      s'.pipes = ((framePipes cv r s).map (afterFrame s.bird)).filter
        (fun q => decide (0 ≤ q.x + pipeWidth)) ∧
      (∀ p, (afterFrame s.bird p).x = p.x - pipeSpeed ∧
        (afterFrame s.bird p).topHeight = p.topHeight ∧
        (afterFrame s.bird p).bottomY = p.bottomY) ∧
      (∀ p ∈ framePipes cv r s,
        afterFrame s.bird p ∈ s'.pipes ↔ 0 ≤ p.x - pipeSpeed + pipeWidth) := by
  obtain ⟨s', hs⟩ : ∃ s', update cv r s = some s' := ⟨_, update_running cv r s h⟩
  have hp := update_running_pipes cv r s s' h hs
  refine ⟨s', hs, hp, fun p => ⟨rfl, rfl, rfl⟩, ?_⟩
  intro p hmem
  rw [hp, List.mem_filter]
  constructor
  · intro hq
    simpa [onScreen, afterFrame, moved] using hq.2
  · intro hx
    exact ⟨List.mem_map_of_mem _ hmem, by simpa [onScreen, afterFrame, moved] using hx⟩

/-- The frame of `exState` keeps the pipe moved from -2 to -5 (right edge 55)
and removes the pipe moved from -58 to -61 (right edge -1). -/
theorem update_pipes_filter_onScreen_witness :
    exState.gameOver = false ∧
      ∃ s', update exCanvas 0 exState = some s' ∧
        s'.pipes = [{ x := -5, topHeight := 100, bottomY := 250, passed := true },
                    { x := 197, topHeight := 60, bottomY := 210, passed := false }] := by
  obtain ⟨s', hs, hpipes, _, _⟩ := update_pipes_filter_onScreen exCanvas 0 exState rfl
  refine ⟨rfl, s', hs, ?_⟩
  rw [hpipes]
  decide!

/-- C7: when `gameOver` is set, `update` returns the state it was given, with
every field equal (bird, pipes, score, frameCount, gameOver and the display
nodes), and so does any number of calls of `update` in a row. -/
theorem update_gameOver_unchanged (cv : Canvas) (s : GameState) (h : s.gameOver = true) :
    (∀ r, update cv r s = some s) ∧ ∀ rs, updates cv rs s = some s := by
  refine ⟨fun r => update_of_gameOver cv r s h, ?_⟩
  intro rs
  induction rs with
  | nil => rfl
  | cons r rs ih => rw [updates, update_of_gameOver cv r s h, Option.some_bind, ih]

/-- Three frames on the finished game `exOver` leave it as it is. -/
theorem update_gameOver_unchanged_witness :
    exOver.gameOver = true ∧ updates exCanvas [0, 1 / 2, 1 / 3] exOver = some exOver :=
  ⟨rfl, (update_gameOver_unchanged exCanvas exOver rfl).2 [0, 1 / 2, 1 / 3]⟩

/-- C8 as stated fails: `setupGame` calls `gameLoop`, and with it `update`,
before it returns, so on a canvas 500 high it returns with `frameCount = 1`
and the bird at `y = 250.5` with velocity `0.5`, here from the finished game
`exOver`. -/
theorem setupGame_counterexample :
    exOver.gameOver = true ∧
      (setupGame exCanvas 0 exOver).map
          (fun s' => (s'.score, s'.frameCount, s'.pipes, s'.gameOver, s'.bird))
        = some (0, 1, [], false,
            { x := 80, y := 501 / 2, width := 35, height := 30, velocity := 1 / 2 }) := by
  decide!

/-- C8, as the code has it: from every state, `setupGame` assigns
`score = 0`, `frameCount = 0`, `pipes = []`, `gameOver = false` and the bird
at (80, 250) with velocity 0, then runs the first frame; on a canvas at least
280.5 high it returns with `score = 0`, no pipes, `gameOver = false`,
`frameCount = 1` and the bird at (80, 250.5) with velocity 0.5. -/
theorem setupGame_resets_then_runs_first_frame (cv : Canvas) (r : ℚ) (s : GameState)
    (hH : 561 / 2 ≤ cv.height) :
    ((setupGameInit s).score = 0 ∧ (setupGameInit s).frameCount = 0 ∧
      (setupGameInit s).pipes = [] ∧ (setupGameInit s).gameOver = false ∧
      (setupGameInit s).bird =
        { x := 80, y := 250, width := 35, height := 30, velocity := 0 }) ∧
    ∃ s', setupGame cv r s = some s' ∧ s'.score = 0 ∧ s'.frameCount = 1 ∧
      s'.pipes = [] ∧ s'.gameOver = false ∧
      s'.bird = { x := 80, y := 501 / 2, width := 35, height := 30, velocity := 1 / 2 } := by
  refine ⟨⟨rfl, rfl, rfl, rfl, rfl⟩, ?_⟩
  have h0 : (setupGameInit s).gameOver = false := rfl
  obtain ⟨s', hs⟩ : ∃ s', update cv r (setupGameInit s) = some s' :=
    ⟨_, update_running cv r _ h0⟩
  have hfp : framePipes cv r (setupGameInit s) = [] :=
    framePipes_of_not_multiple cv r (setupGameInit s) (show (0 + 1) % 100 ≠ 0 by decide)
  have hg : (setupGameInit s).bird.y + ((setupGameInit s).bird.velocity + gravity)
      + (setupGameInit s).bird.height ≤ cv.height := by
    simp only [setupGameInit, birdStartY, birdSizeHeight, gravity]
    linarith
  have hsky : 0 ≤ (setupGameInit s).bird.y + ((setupGameInit s).bird.velocity + gravity) := by
    simp only [setupGameInit, birdStartY, gravity]
    norm_num
  refine ⟨s', hs, ?_, ?_, ?_, ?_, ?_⟩
  · rw [update_running_score cv r _ s' h0 hs, hfp]
    rfl
  · rw [update_running_frameCount cv r _ s' h0 hs]
    rfl
  · rw [update_running_pipes cv r _ s' h0 hs, hfp]
    rfl
  · rw [update_running_gameOver cv r _ s' h0 hs, hfp,
      birdPhysics_gameOver_of_le cv _ h0 hg]
    rfl
  · rw [update_running_bird cv r _ s' h0 hs, birdPhysics_free cv _ hsky hg]
    simp only [setupGameInit, birdStartX, birdStartY, birdSizeWidth, birdSizeHeight, gravity]
    norm_num

/-- From the finished game `exOver`, on the canvas 500 high. -/
theorem setupGame_resets_then_runs_first_frame_witness :
    561 / 2 ≤ exCanvas.height ∧
      ∃ s', setupGame exCanvas 0 exOver = some s' ∧ s'.score = 0 ∧ s'.frameCount = 1 ∧
        s'.pipes = [] ∧ s'.gameOver = false ∧
        s'.bird = { x := 80, y := 501 / 2, width := 35, height := 30, velocity := 1 / 2 } :=
  ⟨by decide!, (setupGame_resets_then_runs_first_frame exCanvas 0 exOver (by decide!)).2⟩

/-- C9: in a frame of a running game in which neither clamp applies
(`0 <= y + velocity + gravity` and
`y + velocity + gravity + height <= canvas.height`), `update` returns with
the velocity increased by 0.5 and `y` increased by the new velocity: the
velocity is updated first, the position second. -/
theorem update_velocity_then_position (cv : Canvas) (r : ℚ) (s : GameState)
    (h : s.gameOver = false)
    (h0 : 0 ≤ s.bird.y + (s.bird.velocity + gravity))
    (hg : s.bird.y + (s.bird.velocity + gravity) + s.bird.height ≤ cv.height) :
    ∃ s', update cv r s = some s' ∧
      s'.bird.velocity = s.bird.velocity + 1 / 2 ∧
      s'.bird.y = s.bird.y + s'.bird.velocity := by
  obtain ⟨s', hs⟩ : ∃ s', update cv r s = some s' := ⟨_, update_running cv r s h⟩
  have hb := update_running_bird cv r s s' h hs
  rw [birdPhysics_free cv s h0 hg] at hb
  refine ⟨s', hs, ?_, ?_⟩
  · rw [hb]
    rfl
  · rw [hb]

/-- From `y = 250` and velocity 0 one frame gives velocity 0.5 and
`y = 250.5`; after `flap` (velocity -9) one frame gives velocity -8.5 and
`y = 241.5`. -/
theorem update_velocity_then_position_witness :
    (exStart.bird.y = 250 ∧ exStart.bird.velocity = 0 ∧
      ∃ s', update exCanvas 0 exStart = some s' ∧
        s'.bird.velocity = 1 / 2 ∧ s'.bird.y = 501 / 2) ∧
    ((flap exStart).bird.y = 250 ∧ (flap exStart).bird.velocity = -9 ∧
      ∃ s', update exCanvas 0 (flap exStart) = some s' ∧
        s'.bird.velocity = -17 / 2 ∧ s'.bird.y = 483 / 2) := by
  obtain ⟨s1, hs1, hv1, hy1⟩ :=
    update_velocity_then_position exCanvas 0 exStart rfl (by decide!) (by decide!)
  obtain ⟨s2, hs2, hv2, hy2⟩ :=
    update_velocity_then_position exCanvas 0 (flap exStart) rfl (by decide!) (by decide!)
  have e1 : exStart.bird.y = 250 := rfl
  have e2 : exStart.bird.velocity = 0 := rfl
  have e3 : (flap exStart).bird.y = 250 := rfl
  have e4 : (flap exStart).bird.velocity = -9 := rfl
  refine ⟨⟨e1, e2, s1, hs1, ?_, ?_⟩, ⟨e3, e4, s2, hs2, ?_, ?_⟩⟩
  · rw [hv1, e2]
    norm_num
  · rw [hy1, hv1, e1, e2]
    norm_num
  · rw [hv2, e4]
    norm_num
  · rw [hy2, hv2, e3, e4]
    norm_num

/-- C10: while the game runs, `flap` sets the velocity of the bird to -9,
whatever it was, and leaves every other field as it is (position and size of
the bird, pipes, score, frameCount, gameOver, display nodes); once `gameOver`
is set `flap` returns the state unchanged. -/
theorem flap_sets_velocity_to_lift (s : GameState) :
    (s.gameOver = false → flap s = { s with bird := { s.bird with velocity := -9 } }) ∧
    (s.gameOver = true → flap s = s) := by
  constructor
  · intro h
    simp only [flap, h, Bool.not_false, if_true, lift]
  · intro h
    simp only [flap, h, Bool.not_true, Bool.false_eq_true, if_false]

/-- On the running game `exGap`, whose bird has velocity -1, and on the
finished game `exOver`. -/
theorem flap_sets_velocity_to_lift_witness :
    (exGap.gameOver = false ∧
      flap exGap = { exGap with bird := { exGap.bird with velocity := -9 } }) ∧
    (exOver.gameOver = true ∧ flap exOver = exOver) :=
  ⟨⟨rfl, (flap_sets_velocity_to_lift exGap).1 rfl⟩,
   ⟨rfl, (flap_sets_velocity_to_lift exOver).2 rfl⟩⟩

/-! ## Generation of pipes -/

theorem generatePipe_eq (cv : Canvas) (r : ℚ) (s : GameState) :
    generatePipe cv r s =
      { s with pipes := s.pipes ++
          [{ x := cv.width
             topHeight := ((⌊r * (cv.height - 249)⌋ : ℤ) : ℚ) + 50
             bottomY := ((⌊r * (cv.height - 249)⌋ : ℤ) : ℚ) + 50 + 150
             passed := false }] } := by
  have e : cv.height - 150 - 50 - 50 + 1 = cv.height - 249 := by ring
  simp only [generatePipe, pipeGap, e]

theorem floor_draw_range (r : ℚ) (H : ℤ) (h250 : 250 ≤ H) (h0 : 0 ≤ r) (h1 : r < 1) :
    0 ≤ ⌊r * ((H : ℚ) - 249)⌋ ∧ ⌊r * ((H : ℚ) - 249)⌋ ≤ H - 250 := by
  have hN : (1 : ℚ) ≤ (H : ℚ) - 249 := by
    have : ((250 : ℤ) : ℚ) ≤ (H : ℚ) := by exact_mod_cast h250
    push_cast at this
    linarith
  constructor
  · exact Int.floor_nonneg.mpr (mul_nonneg h0 (by linarith))
  · have hlt : ⌊r * ((H : ℚ) - 249)⌋ < H - 249 := by
      rw [Int.floor_lt]
      push_cast
      nlinarith
    omega

/-- C11: for every draw `0 <= r < 1` and every integer canvas height
`H >= 250`, `generatePipe` appends exactly one pipe and changes nothing else;
the pipe has an integer `topHeight` with `50 <= topHeight <= H - 150 - 50`,
`bottomY = topHeight + 150`, `x = canvas.width` and `passed = false`; the
draw 0 gives `topHeight = 50` and the draw `(H - 250) / (H - 249)` gives
`topHeight = H - 200`. -/
theorem generatePipe_topHeight_range (cv : Canvas) (r : ℚ) (s : GameState) (H : ℤ)
    (hH : cv.height = (H : ℚ)) (h250 : 250 ≤ H) (h0 : 0 ≤ r) (h1 : r < 1) :
    (∃ t : ℤ, 50 ≤ t ∧ t ≤ H - 150 - 50 ∧
      generatePipe cv r s =
        { s with pipes := s.pipes ++
            [{ x := cv.width, topHeight := (t : ℚ), bottomY := (t : ℚ) + 150,
               passed := false }] }) ∧
    (∃ r0 : ℚ, 0 ≤ r0 ∧ r0 < 1 ∧
      (generatePipe cv r0 s).pipes =
        s.pipes ++ [{ x := cv.width, topHeight := 50, bottomY := 50 + 150,
                      passed := false }]) ∧
    (∃ r1 : ℚ, 0 ≤ r1 ∧ r1 < 1 ∧
      (generatePipe cv r1 s).pipes =
        s.pipes ++ [{ x := cv.width, topHeight := (H : ℚ) - 200,
                      bottomY := (H : ℚ) - 200 + 150, passed := false }]) := by
  have hN : (1 : ℚ) ≤ (H : ℚ) - 249 := by
    have : ((250 : ℤ) : ℚ) ≤ (H : ℚ) := by exact_mod_cast h250
    push_cast at this
    linarith
  refine ⟨?_, ?_, ?_⟩
  · obtain ⟨hlo, hhi⟩ := floor_draw_range r H h250 h0 h1
    refine ⟨⌊r * ((H : ℚ) - 249)⌋ + 50, by omega, by omega, ?_⟩
    rw [generatePipe_eq, hH]
    push_cast
    rfl
  · refine ⟨0, le_refl _, by norm_num, ?_⟩
    rw [generatePipe_eq]
    simp
  · refine ⟨((H : ℚ) - 250) / ((H : ℚ) - 249), ?_, ?_, ?_⟩
    · exact div_nonneg (by linarith) (by linarith)
    · rw [div_lt_one (by linarith)]
      linarith
    · have e : ((H : ℚ) - 250) / ((H : ℚ) - 249) * (cv.height - 249) = ((H - 250 : ℤ) : ℚ) := by
        rw [hH]
        push_cast
        field_simp
      rw [generatePipe_eq, e, Int.floor_intCast]
      push_cast
      simp only [List.append_cancel_left_eq, List.cons.injEq, Pipe.mk.injEq, and_true, true_and]
      constructor <;> ring

/-- On the canvas 500 high, the draw 1/2 gives `topHeight = 175`, within
[50, 300]. -/
theorem generatePipe_topHeight_range_witness :
    exCanvas.height = ((500 : ℤ) : ℚ) ∧ (250 : ℤ) ≤ 500 ∧ (0 : ℚ) ≤ 1 / 2 ∧ (1 / 2 : ℚ) < 1 ∧
      (∃ t : ℤ, 50 ≤ t ∧ t ≤ 500 - 150 - 50 ∧
        generatePipe exCanvas (1 / 2) exStart =
          { exStart with pipes := exStart.pipes ++
              [{ x := exCanvas.width, topHeight := (t : ℚ), bottomY := (t : ℚ) + 150,
                 passed := false }] }) ∧
      (generatePipe exCanvas (1 / 2) exStart).pipes =
        [{ x := 400, topHeight := 175, bottomY := 325, passed := false }] :=
  ⟨by decide!, by decide, by norm_num, by norm_num,
    (generatePipe_topHeight_range exCanvas (1 / 2) exStart 500 (by decide!) (by decide)
      (by norm_num) (by norm_num)).1,
    by decide!⟩

/-! ## Lists of pipes a fixed distance apart -/

theorem spaced_all_ge (a : Pipe) (l : List Pipe) (h : (a :: l).Chain' spaced) :
    ∀ q ∈ l, a.x + pipeSpeed * (pipeInterval : ℚ) ≤ q.x := by
  induction l generalizing a with
  | nil => intro q hq; cases hq
  | cons b t ih =>
    rw [List.chain'_cons] at h
    intro q hq
    have hb : b.x = a.x + pipeSpeed * (pipeInterval : ℚ) := h.1
    rcases List.mem_cons.mp hq with rfl | hq
    · exact le_of_eq hb.symm
    · have := ih b h.2 q hq
      have hpos : (0 : ℚ) ≤ pipeSpeed * (pipeInterval : ℚ) := by
        simp only [pipeSpeed, pipeInterval]
        norm_num
      linarith

theorem filter_onScreen_suffix (l : List Pipe) (h : l.Chain' spaced) :
    ∃ t, l = t ++ l.filter onScreen := by
  induction l with
  | nil => exact ⟨[], rfl⟩
  | cons a l ih =>
    by_cases ha : onScreen a = true
    · refine ⟨[], ?_⟩
      rw [List.nil_append, eq_comm, List.filter_eq_self]
      intro q hq
      rcases List.mem_cons.mp hq with rfl | hq
      · exact ha
      · have hge := spaced_all_ge a l h q hq
        have hpos : (0 : ℚ) ≤ pipeSpeed * (pipeInterval : ℚ) := by
          simp only [pipeSpeed, pipeInterval]
          norm_num
        simp only [onScreen, decide_eq_true_eq] at ha ⊢
        linarith
    · obtain ⟨t, ht⟩ := ih h.tail
      refine ⟨a :: t, ?_⟩
      rw [List.filter_cons_of_neg ha, List.cons_append, ← ht]

theorem chain_filter_onScreen (l : List Pipe) (h : l.Chain' spaced) :
    (l.filter onScreen).Chain' spaced := by
  obtain ⟨t, ht⟩ := filter_onScreen_suffix l h
  rw [ht] at h
  exact h.right_of_append

theorem getLast?_filter_onScreen (l : List Pipe) (h : l.Chain' spaced) :
    ∀ p ∈ (l.filter onScreen).getLast?, p ∈ l.getLast? := by
  obtain ⟨t, ht⟩ := filter_onScreen_suffix l h
  intro p hp
  rw [ht, List.getLast?_append]
  rw [Option.mem_def] at hp
  rw [hp]
  rfl

theorem chain_map_afterFrame (b : Bird) (l : List Pipe) (h : l.Chain' spaced) :
    (l.map (afterFrame b)).Chain' spaced := by
  rw [List.chain'_map]
  refine h.imp ?_
  intro p q hpq
  simp only [spaced, afterFrame, moved] at hpq ⊢
  rw [hpq]
  ring

theorem countP_window_le_one (P : Pipe → Bool) (lo hi : ℚ)
    (hw : hi - lo ≤ pipeSpeed * (pipeInterval : ℚ)) (l : List Pipe) (hc : l.Chain' spaced)
    (hP : ∀ p ∈ l, P p = true → lo < p.x ∧ p.x < hi) : l.countP P ≤ 1 := by
  induction l with
  | nil => simp
  | cons a t ih =>
    by_cases ha : P a = true
    · have hz : t.countP P = 0 := by
        rw [List.countP_eq_zero]
        intro q hq hPq
        have h1 := hP a (List.mem_cons_self a t) ha
        have h2 := hP q (List.mem_cons_of_mem a hq) hPq
        have h3 := spaced_all_ge a t hc q hq
        linarith
      rw [List.countP_cons_of_pos _ _ ha, hz]
    · rw [List.countP_cons_of_neg _ _ ha]
      exact ih hc.tail (fun p hp => hP p (List.mem_cons_of_mem a hp))

theorem countP_scoresNow_add (b : Bird) (hb : 0 ≤ b.x) (l : List Pipe) :
    l.countP (scoresNow b) + unpassedCount ((l.map (afterFrame b)).filter onScreen)
      = unpassedCount l := by
  induction l with
  | nil => rfl
  | cons a t ih =>
    have step : ∀ n m k : ℕ, n + m = k → (n + 1) + m = k + 1 := by
      intro n m k h
      omega
    unfold unpassedCount at ih ⊢
    rw [List.map_cons]
    by_cases hp : a.passed = true
    · have h1 : scoresNow b a = false := by simp [scoresNow, hp]
      have h2 : (afterFrame b a).passed = true := by simp [afterFrame, hp]
      rw [List.countP_cons_of_neg _ _ (by simp [h1]),
        List.countP_cons_of_neg _ _ (by simp [hp])]
      by_cases ho : onScreen (afterFrame b a) = true
      · rw [List.filter_cons_of_pos ho, List.countP_cons_of_neg _ _ (by simp [h2])]
        exact ih
      · rw [List.filter_cons_of_neg ho]
        exact ih
    · have hp' : a.passed = false := by simpa using hp
      rw [List.countP_cons_of_pos (fun p : Pipe => !p.passed) t (by simp [hp'])]
      by_cases hx : (moved a).x + pipeWidth < b.x
      · have h1 : scoresNow b a = true := by simp [scoresNow, hp', hx]
        have h2 : (afterFrame b a).passed = true := by simp [afterFrame, hx]
        rw [List.countP_cons_of_pos _ _ h1]
        by_cases ho : onScreen (afterFrame b a) = true
        · rw [List.filter_cons_of_pos ho, List.countP_cons_of_neg _ _ (by simp [h2])]
          exact step _ _ _ ih
        · rw [List.filter_cons_of_neg ho]
          exact step _ _ _ ih
      · have h1 : scoresNow b a = false := by simp [scoresNow, hx]
        have h2 : (afterFrame b a).passed = false := by simp [afterFrame, hp', hx]
        have ho : onScreen (afterFrame b a) = true := by
          have : (afterFrame b a).x = (moved a).x := rfl
          simp only [onScreen, decide_eq_true_eq, this]
          linarith [not_lt.mp hx]
        rw [List.countP_cons_of_neg _ _ (by simp [h1]), List.filter_cons_of_pos ho,
          List.countP_cons_of_pos (fun p : Pipe => !p.passed) _ (by simp [h2])]
        omega

/-! ## The invariant of a session -/

theorem update_total (cv : Canvas) (r : ℚ) (s : GameState) :
    ∃ s', update cv r s = some s' := by
  cases h : s.gameOver
  · exact ⟨_, update_running cv r s h⟩
  · exact ⟨s, update_of_gameOver cv r s h⟩

theorem birdPhysics_bird_width (cv : Canvas) (s : GameState) :
    (birdPhysics cv s).bird.width = s.bird.width := by
  unfold birdPhysics showGameOver
  dsimp only
  split_ifs <;> rfl

theorem framePipes_of_multiple (cv : Canvas) (r : ℚ) (s : GameState)
    (h : (s.frameCount + 1) % pipeInterval = 0) :
    ∃ t : ℚ, framePipes cv r s =
      s.pipes ++ [{ x := cv.width, topHeight := t, bottomY := t + pipeGap, passed := false }] := by
  refine ⟨((⌊r * (cv.height - pipeGap - 50 - 50 + 1)⌋ : ℤ) : ℚ) + 50, ?_⟩
  unfold framePipes pipeSpawn
  dsimp only
  rw [birdPhysics_frameCount, if_pos h]
  unfold generatePipe
  dsimp only
  rw [birdPhysics_pipes]

/-- The array at the start of the loop, in a state of a session: the pipes
are a fixed distance apart, the last one is where the frame count says, a
marked pipe is left of the bird, and the score and the unmarked pipes add up
to the number of pipes generated. -/
theorem framePipes_inv (cv : Canvas) (r : ℚ) (s : GameState) (hinv : SessionInv cv s) :
    (framePipes cv r s).Chain' spaced ∧
    (∀ p ∈ (framePipes cv r s).getLast?,
      p.x = cv.width - pipeSpeed * (((s.frameCount + 1) % pipeInterval : ℕ) : ℚ)) ∧
    (∀ p ∈ framePipes cv r s, p.passed = true → p.x + pipeWidth < s.bird.x) ∧
    (∀ p ∈ framePipes cv r s, p.bottomY = p.topHeight + pipeGap) ∧
    s.score + unpassedCount (framePipes cv r s) = (s.frameCount + 1) / pipeInterval ∧
    (framePipes cv r s).length ≤ (s.frameCount + 1) / pipeInterval := by
  have hscore := hinv.score_eq
  have hlen := hinv.length_le
  have hlast := hinv.last_x
  simp only [pipeInterval] at hscore hlen hlast ⊢
  by_cases hm : (s.frameCount + 1) % 100 = 0
  · obtain ⟨t, ht⟩ := framePipes_of_multiple cv r s hm
    have h99 : s.frameCount % 100 = 99 := by omega
    have hdiv : (s.frameCount + 1) / 100 = s.frameCount / 100 + 1 := by omega
    rw [ht, hm, hdiv]
    refine ⟨?_, ?_, ?_, ?_, ?_, ?_⟩
    · refine hinv.chain.append (List.chain'_singleton _) ?_
      intro p hp q hq
      simp only [List.head?_cons, Option.mem_def, Option.some.injEq] at hq
      subst hq
      have := hlast p hp
      rw [h99] at this
      simp only [spaced, pipeInterval, this, pipeSpeed]
      push_cast
      ring
    · intro p hp
      rw [List.getLast?_concat, Option.mem_def, Option.some.injEq] at hp
      subst hp
      simp
    · intro p hp hpass
      rcases List.mem_append.mp hp with hp | hp
      · exact (hinv.passed_iff p hp).mp hpass
      · rw [List.mem_singleton] at hp
        subst hp
        cases hpass
    · intro p hp
      rcases List.mem_append.mp hp with hp | hp
      · exact hinv.gap p hp
      · rw [List.mem_singleton] at hp
        subst hp
        rfl
    · simp only [unpassedCount, List.countP_append, List.countP_cons, List.countP_nil,
        Bool.not_false, if_true] at hscore ⊢
      omega
    · rw [List.length_append, List.length_singleton]
      omega
  · have hfp : framePipes cv r s = s.pipes :=
      framePipes_of_not_multiple cv r s (by simpa only [pipeInterval] using hm)
    have hmod : (s.frameCount + 1) % 100 = s.frameCount % 100 + 1 := by omega
    have hdiv : (s.frameCount + 1) / 100 = s.frameCount / 100 := by omega
    rw [hfp, hmod, hdiv]
    refine ⟨hinv.chain, ?_, ?_, hinv.gap, hscore, hlen⟩
    · intro p hp
      rw [hlast p hp]
      push_cast
      rfl
    · intro p hp hpass
      exact (hinv.passed_iff p hp).mp hpass

theorem sessionInv_update (cv : Canvas) (r : ℚ) (s s' : GameState)
    (hinv : SessionInv cv s) (hs : update cv r s = some s') : SessionInv cv s' := by
  cases h : s.gameOver
  · obtain ⟨hchain, hlast, hpass, hgap, hscore, hlen⟩ := framePipes_inv cv r s hinv
    have hb := update_running_bird cv r s s' h hs
    have hp := update_running_pipes cv r s s' h hs
    have hf := update_running_frameCount cv r s s' h hs
    have hsc := update_running_score cv r s s' h hs
    have hbx : s'.bird.x = s.bird.x := by rw [hb, birdPhysics_bird_x]
    have hmem : ∀ q ∈ s'.pipes, ∃ p ∈ framePipes cv r s,
        q = afterFrame s.bird p ∧ onScreen q = true := by
      intro q hq
      rw [hp, List.mem_filter, List.mem_map] at hq
      obtain ⟨⟨p, hpm, rfl⟩, ho⟩ := hq
      exact ⟨p, hpm, rfl, ho⟩
    refine ⟨?_, ?_, ?_, ?_, ?_, ?_, ?_, ?_, ?_, ?_⟩
    · rw [hbx]
      exact hinv.bird_x
    · rw [hb, birdPhysics_bird_width]
      exact hinv.bird_width
    · rw [hb, birdPhysics_bird_height]
      exact hinv.bird_height
    · rw [hp]
      exact chain_filter_onScreen _ (chain_map_afterFrame _ _ hchain)
    · intro q hq
      rw [hp] at hq
      have hq' := getLast?_filter_onScreen _ (chain_map_afterFrame s.bird _ hchain) q hq
      rw [List.getLast?_map, Option.mem_def, Option.map_eq_some'] at hq'
      obtain ⟨p, hpl, rfl⟩ := hq'
      have hx : (afterFrame s.bird p).x = p.x - pipeSpeed := rfl
      rw [hx, hlast p hpl, hf]
      ring
    · intro q hq
      obtain ⟨p, hpm, rfl, _⟩ := hmem q hq
      rw [hbx]
      have hx : (afterFrame s.bird p).x = p.x - pipeSpeed := rfl
      have hpa : (afterFrame s.bird p).passed =
          (p.passed || decide (p.x - pipeSpeed + pipeWidth < s.bird.x)) := rfl
      rw [hx, hpa, Bool.or_eq_true, decide_eq_true_eq]
      constructor
      · rintro (h1 | h1)
        · have := hpass p hpm h1
          have hpos : (0 : ℚ) < pipeSpeed := by
            simp only [pipeSpeed]
            norm_num
          linarith
        · exact h1
      · intro h1
        exact Or.inr h1
    · intro q hq
      obtain ⟨p, _, rfl, ho⟩ := hmem q hq
      simpa only [onScreen, decide_eq_true_eq] using ho
    · intro q hq
      obtain ⟨p, hpm, rfl, _⟩ := hmem q hq
      exact hgap p hpm
    · rw [hsc, hp, hf, Nat.add_assoc,
        countP_scoresNow_add s.bird (by rw [hinv.bird_x]; simp only [birdStartX]; norm_num)]
      exact hscore
    · rw [hp, hf]
      refine le_trans (List.length_filter_le _ _) ?_
      rw [List.length_map]
      exact hlen
  · rw [update_of_gameOver cv r s h] at hs
    cases hs
    exact hinv

theorem sessionInv_flap (cv : Canvas) (s : GameState) (hinv : SessionInv cv s) :
    SessionInv cv (flap s) := by
  unfold flap
  split_ifs
  · exact ⟨hinv.bird_x, hinv.bird_width, hinv.bird_height, hinv.chain, hinv.last_x,
      hinv.passed_iff, hinv.on_canvas, hinv.gap, hinv.score_eq, hinv.length_le⟩
  · exact hinv

theorem sessionInv_setupGameInit (cv : Canvas) (s : GameState) :
    SessionInv cv (setupGameInit s) := by
  have hz : (0 : ℕ) + unpassedCount [] = 0 / pipeInterval := by decide
  refine ⟨rfl, rfl, rfl, List.chain'_nil, ?_, ?_, ?_, ?_, hz, ?_⟩
  · intro p hp
    cases hp
  · intro p hp
    cases hp
  · intro p hp
    cases hp
  · intro p hp
    cases hp
  · exact Nat.zero_le _

theorem calls_inv (cv : Canvas) (cs : List Call) :
    ∀ s, SessionInv cv s → ∃ s', calls cv cs s = some s' ∧ SessionInv cv s' := by
  induction cs with
  | nil => exact fun s hinv => ⟨s, rfl, hinv⟩
  | cons c cs ih =>
    intro s hinv
    cases c with
    | update r =>
      obtain ⟨s1, h1⟩ := update_total cv r s
      obtain ⟨s2, h2, hinv2⟩ := ih s1 (sessionInv_update cv r s s1 hinv h1)
      exact ⟨s2, by rw [calls, call, h1, Option.some_bind, h2], hinv2⟩
    | flap =>
      obtain ⟨s2, h2, hinv2⟩ := ih (flap s) (sessionInv_flap cv s hinv)
      exact ⟨s2, by rw [calls, call, Option.some_bind, h2], hinv2⟩

/-- Every session returns, in a state in which the invariant holds. -/
theorem session_inv (cv : Canvas) (r0 : ℚ) (s0 : GameState) (cs : List Call) :
    ∃ s, session cv r0 s0 cs = some s ∧ SessionInv cv s := by
  obtain ⟨s1, h1⟩ := update_total cv r0 (setupGameInit s0)
  have hinv1 := sessionInv_update cv r0 _ s1 (sessionInv_setupGameInit cv s0) h1
  obtain ⟨s2, h2, hinv2⟩ := calls_inv cv cs s1 hinv1
  refine ⟨s2, ?_, hinv2⟩
  unfold session setupGame gameLoop
  rw [h1, Option.some_bind, h2]

theorem framePipes_length_le (cv : Canvas) (r : ℚ) (s : GameState) :
    (framePipes cv r s).length ≤ s.pipes.length + 1 := by
  by_cases hm : (s.frameCount + 1) % pipeInterval = 0
  · obtain ⟨t, ht⟩ := framePipes_of_multiple cv r s hm
    rw [ht, List.length_append, List.length_singleton]
  · rw [framePipes_of_not_multiple cv r s hm]
    exact Nat.le_succ _

theorem framePipes_mem (cv : Canvas) (r : ℚ) (s : GameState) (p : Pipe)
    (hp : p ∈ framePipes cv r s) : p ∈ s.pipes ∨ p.x = cv.width := by
  by_cases hm : (s.frameCount + 1) % pipeInterval = 0
  · obtain ⟨t, ht⟩ := framePipes_of_multiple cv r s hm
    rw [ht] at hp
    rcases List.mem_append.mp hp with hp | hp
    · exact Or.inl hp
    · rw [List.mem_singleton] at hp
      subst hp
      exact Or.inr rfl
  · rw [framePipes_of_not_multiple cv r s hm] at hp
    exact Or.inl hp

theorem framePipes_new_far (cv : Canvas) (r : ℚ) (s : GameState) (hinv : SessionInv cv s)
    (a : Pipe) (ha : a ∈ s.pipes) (p : Pipe) (hp : p ∈ framePipes cv r s)
    (hnew : p ∉ s.pipes) : a.x + pipeSpeed * (pipeInterval : ℚ) ≤ p.x := by
  have hchain := (framePipes_inv cv r s hinv).1
  by_cases hm : (s.frameCount + 1) % pipeInterval = 0
  · obtain ⟨t, ht⟩ := framePipes_of_multiple cv r s hm
    rw [ht] at hp hchain
    rcases List.mem_append.mp hp with hp | hp
    · exact absurd hp hnew
    · rw [List.mem_singleton] at hp
      subst hp
      obtain ⟨l1, l2, hl⟩ := List.append_of_mem ha
      rw [hl, List.append_assoc] at hchain
      have hc2 := hchain.right_of_append
      rw [List.cons_append] at hc2
      exact spaced_all_ge a _ hc2 _ (List.mem_append_right _ (List.mem_singleton_self _))
  · rw [framePipes_of_not_multiple cv r s hm] at hp
    exact absurd hp hnew

theorem countP_scoresNow_le_one (cv : Canvas) (r : ℚ) (s : GameState)
    (hinv : SessionInv cv s) : (framePipes cv r s).countP (scoresNow s.bird) ≤ 1 := by
  cases hps : s.pipes with
  | nil =>
    have hlen := framePipes_length_le cv r s
    rw [hps] at hlen
    exact le_trans (List.countP_le_length _) hlen
  | cons a t =>
    have ha : a ∈ s.pipes := by
      rw [hps]
      exact List.mem_cons_self a t
    have hchain := (framePipes_inv cv r s hinv).1
    refine countP_window_le_one (scoresNow s.bird) (-61) 23
      (by simp only [pipeSpeed, pipeInterval]; norm_num) _ hchain ?_
    intro p hp hsc
    have hx : p.x - pipeSpeed + pipeWidth < s.bird.x := by
      simp only [scoresNow, moved, Bool.and_eq_true, decide_eq_true_eq] at hsc
      exact hsc.1
    rw [hinv.bird_x] at hx
    simp only [pipeSpeed, pipeWidth, birdStartX] at hx
    refine ⟨?_, by linarith⟩
    by_cases hold : p ∈ s.pipes
    · have := hinv.on_canvas p hold
      simp only [pipeWidth] at this
      linarith
    · have h1 := framePipes_new_far cv r s hinv a ha p hp hold
      have h2 := hinv.on_canvas a ha
      simp only [pipeSpeed, pipeInterval, pipeWidth] at h1 h2
      push_cast at h1
      linarith

theorem countP_horizontalOverlap_le_one (b : Bird) (hw : b.width = birdSizeWidth) (d : ℚ)
    (l : List Pipe) (hc : l.Chain' spaced) :
    l.countP (fun p => horizontalOverlap b { p with x := p.x - d }) ≤ 1 := by
  refine countP_window_le_one _ (b.x - pipeWidth + d) (b.x + b.width + d)
    (by rw [hw]; simp only [pipeSpeed, pipeInterval, pipeWidth, birdSizeWidth]; norm_num)
    l hc ?_
  intro p _ hov
  simp only [horizontalOverlap, Bool.and_eq_true, decide_eq_true_eq, gt_iff_lt] at hov
  constructor <;> linarith [hov.1, hov.2]

theorem pairwise_of_spaced (l : List Pipe) (hc : l.Chain' spaced) :
    l.Pairwise (fun a b => a.x < b.x) := by
  induction l with
  | nil => exact List.Pairwise.nil
  | cons a t ih =>
    rw [List.pairwise_cons]
    refine ⟨?_, ih hc.tail⟩
    intro q hq
    have := spaced_all_ge a t hc q hq
    simp only [pipeSpeed, pipeInterval] at this
    push_cast at this
    linarith

theorem birdPhysics_sky (cv : Canvas) (s : GameState) (h : s.gameOver = false)
    (hH : s.bird.height ≤ cv.height)
    (hneg : s.bird.y + (s.bird.velocity + gravity) < 0) :
    (birdPhysics cv s).bird = { s.bird with y := 0, velocity := 0 } ∧
      (birdPhysics cv s).gameOver = false := by
  have hg : ¬ (s.bird.y + (s.bird.velocity + gravity) + s.bird.height > cv.height) := by
    rw [not_lt]
    linarith
  unfold birdPhysics
  dsimp only
  rw [if_neg hg]
  dsimp only
  rw [if_pos hneg]
  exact ⟨rfl, h⟩

/-! ## The claims about generation, game over and the bird -/

/-- C12: a frame of a running game increments `frameCount` by exactly 1, and
the array the loop runs over is the pipes of the state with one new pipe (at
`x = canvas.width`, `passed = false`) appended when the incremented
`frameCount` is a multiple of `pipeInterval = 100`, and the pipes of the
state alone in every other frame; so in a session the list is empty as long
as `frameCount < 100`, and the frame that brings `frameCount` to 100 puts the
first pipe in it (on a canvas of non-negative width). -/
theorem update_frameCount_and_generation (cv : Canvas) :
    (∀ r s, s.gameOver = false →
      ∃ s', update cv r s = some s' ∧ s'.frameCount = s.frameCount + 1 ∧
        ((s.frameCount + 1) % pipeInterval = 0 →
          ∃ t : ℚ, framePipes cv r s =
            s.pipes ++ [{ x := cv.width, topHeight := t, bottomY := t + pipeGap,
                          passed := false }]) ∧
        ((s.frameCount + 1) % pipeInterval ≠ 0 → framePipes cv r s = s.pipes) ∧
        s'.pipes = ((framePipes cv r s).map (afterFrame s.bird)).filter onScreen) ∧
    (∀ r0 s0 cs, ∃ s, session cv r0 s0 cs = some s ∧
      (s.frameCount < pipeInterval → s.pipes = [])) ∧
    (∀ r s, s.gameOver = false → s.frameCount + 1 = pipeInterval → s.pipes = [] →
      0 ≤ cv.width →
      ∃ s' p, update cv r s = some s' ∧ s'.frameCount = pipeInterval ∧
        s'.pipes = [p] ∧ p.x = cv.width - pipeSpeed) := by
  refine ⟨?_, ?_, ?_⟩
  · intro r s h
    obtain ⟨s', hs⟩ : ∃ s', update cv r s = some s' := ⟨_, update_running cv r s h⟩
    exact ⟨s', hs, update_running_frameCount cv r s s' h hs,
      framePipes_of_multiple cv r s, framePipes_of_not_multiple cv r s,
      update_running_pipes cv r s s' h hs⟩
  · intro r0 s0 cs
    obtain ⟨s, hs, hinv⟩ := session_inv cv r0 s0 cs
    refine ⟨s, hs, ?_⟩
    intro hlt
    have hlen := hinv.length_le
    rw [Nat.div_eq_of_lt hlt, Nat.le_zero, List.length_eq_zero] at hlen
    exact hlen
  · intro r s h hfc hnil hw
    obtain ⟨s', hs⟩ : ∃ s', update cv r s = some s' := ⟨_, update_running cv r s h⟩
    have hm : (s.frameCount + 1) % pipeInterval = 0 := by
      rw [hfc]
      exact Nat.mod_self _
    obtain ⟨t, ht⟩ := framePipes_of_multiple cv r s hm
    have hp := update_running_pipes cv r s s' h hs
    rw [ht, hnil] at hp
    have hon : onScreen (afterFrame s.bird
        { x := cv.width, topHeight := t, bottomY := t + pipeGap, passed := false }) = true := by
      simp only [onScreen, afterFrame, moved, pipeSpeed, pipeWidth, decide_eq_true_eq]
      linarith
    refine ⟨s', afterFrame s.bird
      { x := cv.width, topHeight := t, bottomY := t + pipeGap, passed := false }, hs, ?_, ?_, rfl⟩
    · rw [update_running_frameCount cv r s s' h hs, hfc]
    · rw [hp, List.nil_append, List.map_singleton, List.filter_cons_of_pos hon, List.filter_nil]

/-- From the reset state with `frameCount = 99` the frame brings the count
to 100 and the first pipe into the list, moved from 400 to 397. -/
theorem update_frameCount_and_generation_witness :
    ({ exStart with frameCount := 99 } : GameState).gameOver = false ∧
      ∃ s' p, update exCanvas (1 / 2) { exStart with frameCount := 99 } = some s' ∧
        s'.frameCount = 100 ∧ s'.pipes = [p] ∧ p.x = 397 := by
  obtain ⟨s', p, hs, hf, hp, hx⟩ :=
    (update_frameCount_and_generation exCanvas).2.2 (1 / 2)
      { exStart with frameCount := 99 } rfl rfl rfl (by decide!)
  refine ⟨rfl, s', p, hs, hf, hp, ?_⟩
  rw [hx]
  decide!

/-- C14: in a frame of a running game on a canvas at least as high as the
bird, if the integrated position `y + velocity + gravity` is negative, then
`update` returns with `bird.y = 0` and `bird.velocity = 0`, and with
`gameOver` set exactly when the collision test holds for some pipe of the
frame. -/
theorem update_sky_clamp (cv : Canvas) (r : ℚ) (s : GameState)
    (h : s.gameOver = false) (hH : s.bird.height ≤ cv.height)
    (hneg : s.bird.y + (s.bird.velocity + gravity) < 0) :
    ∃ s', update cv r s = some s' ∧ s'.bird.y = 0 ∧ s'.bird.velocity = 0 ∧
      (s'.gameOver = true ↔
        ∃ p ∈ framePipes cv r s, pipeCollision s'.bird (moved p) = true) := by
  obtain ⟨s', hs⟩ : ∃ s', update cv r s = some s' := ⟨_, update_running cv r s h⟩
  have hb := update_running_bird cv r s s' h hs
  obtain ⟨hsky, hgo⟩ := birdPhysics_sky cv s h hH hneg
  refine ⟨s', hs, ?_, ?_, ?_⟩
  · rw [hb, hsky]
  · rw [hb, hsky]
  · rw [update_running_gameOver cv r s s' h hs, hgo, Bool.false_or, List.any_eq_true, hb]

/-- The frame of `exSky` leaves the bird at the top edge, stopped, and the
game running. -/
theorem update_sky_clamp_witness :
    exSky.gameOver = false ∧ exSky.bird.height ≤ exCanvas.height ∧
      exSky.bird.y + (exSky.bird.velocity + gravity) < 0 ∧
      ∃ s', update exCanvas 0 exSky = some s' ∧ s'.bird.y = 0 ∧ s'.bird.velocity = 0 ∧
        s'.gameOver = false := by
  obtain ⟨s', hs, hy, hv, hiff⟩ :=
    update_sky_clamp exCanvas 0 exSky rfl (by decide!) (by decide!)
  refine ⟨rfl, by decide!, by decide!, s', hs, hy, hv, ?_⟩
  rw [← Bool.not_eq_true, hiff, update_running_bird exCanvas 0 exSky s' rfl hs]
  decide!

/-- C15: `update` and `flap` leave `bird.x`, `bird.width` and `bird.height`
as they are, in every state; in every state of a session `bird.x` is 80. -/
theorem bird_x_constant (cv : Canvas) :
    (∀ r s, ∃ s', update cv r s = some s' ∧ s'.bird.x = s.bird.x ∧
      s'.bird.width = s.bird.width ∧ s'.bird.height = s.bird.height) ∧
    (∀ s, (flap s).bird.x = s.bird.x ∧ (flap s).bird.width = s.bird.width ∧
      (flap s).bird.height = s.bird.height) ∧
    (∀ r0 s0 cs, ∃ s, session cv r0 s0 cs = some s ∧ s.bird.x = 80) := by
  refine ⟨?_, ?_, ?_⟩
  · intro r s
    cases h : s.gameOver
    · obtain ⟨s', hs⟩ : ∃ s', update cv r s = some s' := ⟨_, update_running cv r s h⟩
      have hb := update_running_bird cv r s s' h hs
      refine ⟨s', hs, ?_, ?_, ?_⟩
      · rw [hb, birdPhysics_bird_x]
      · rw [hb, birdPhysics_bird_width]
      · rw [hb, birdPhysics_bird_height]
    · exact ⟨s, update_of_gameOver cv r s h, rfl, rfl, rfl⟩
  · intro s
    unfold flap
    split_ifs <;> exact ⟨rfl, rfl, rfl⟩
  · intro r0 s0 cs
    obtain ⟨s, hs, hinv⟩ := session_inv cv r0 s0 cs
    exact ⟨s, hs, hinv.bird_x⟩

/-! ## The claims about sessions -/

/-- C16: in every state of a session (`setupGame`, then any calls of `update`
and `flap`, with any draws), `score` is `floor(frameCount / 100)` minus the
number of pipes in the list with `passed = false`; and in every frame a pipe
that the loop removes (right edge `< 0` after the move) is marked passed
when it is removed, so no pipe is pruned without having been scored. -/
theorem session_score_eq (cv : Canvas) (r0 : ℚ) (s0 : GameState) (cs : List Call) :
    ∃ s, session cv r0 s0 cs = some s ∧
      s.score + s.pipes.countP (fun p => !p.passed) = s.frameCount / pipeInterval ∧
      s.score = s.frameCount / 100 - s.pipes.countP (fun p => !p.passed) ∧
      ∀ r, ∀ p ∈ framePipes cv r s,
        (afterFrame s.bird p).x + pipeWidth < 0 → (afterFrame s.bird p).passed = true := by
  obtain ⟨s, hs, hinv⟩ := session_inv cv r0 s0 cs
  have hsc := hinv.score_eq
  refine ⟨s, hs, hsc, ?_, ?_⟩
  · simp only [unpassedCount, pipeInterval] at hsc
    omega
  · intro r p _ hx
    have hx' : p.x - pipeSpeed + pipeWidth < s.bird.x := by
      have h1 : (afterFrame s.bird p).x = p.x - pipeSpeed := rfl
      rw [h1] at hx
      rw [hinv.bird_x]
      simp only [birdStartX]
      linarith
    simp only [afterFrame, moved, hx', decide_True, Bool.or_true]

/-- C17: in every state of a session the pipes are ordered by strictly
increasing `x`, consecutive pipes are exactly `pipeSpeed * pipeInterval = 300`
apart, at most one pipe overlaps the bird horizontally, in the state and
among the moved pipes of the next frame, and a frame raises the score by at
most 1. -/
theorem session_pipes_spaced (cv : Canvas) (r0 : ℚ) (s0 : GameState) (cs : List Call) :
    ∃ s, session cv r0 s0 cs = some s ∧
      pipeSpeed * (pipeInterval : ℚ) = 300 ∧
      s.pipes.Chain' (fun a b => b.x = a.x + 300) ∧
      s.pipes.Pairwise (fun a b => a.x < b.x) ∧
      s.pipes.countP (horizontalOverlap s.bird) ≤ 1 ∧
      ∀ r, (framePipes cv r s).countP (fun p => horizontalOverlap s.bird (moved p)) ≤ 1 ∧
        ∃ s', update cv r s = some s' ∧ s.score ≤ s'.score ∧ s'.score ≤ s.score + 1 := by
  obtain ⟨s, hs, hinv⟩ := session_inv cv r0 s0 cs
  have h300 : pipeSpeed * (pipeInterval : ℚ) = 300 := by
    simp only [pipeSpeed, pipeInterval]
    norm_num
  refine ⟨s, hs, h300, ?_, pairwise_of_spaced _ hinv.chain, ?_, ?_⟩
  · refine hinv.chain.imp ?_
    intro a b hab
    rw [← h300]
    exact hab
  · have := countP_horizontalOverlap_le_one s.bird hinv.bird_width 0 s.pipes hinv.chain
    simpa only [sub_zero] using this
  · intro r
    refine ⟨countP_horizontalOverlap_le_one s.bird hinv.bird_width pipeSpeed _
      (framePipes_inv cv r s hinv).1, ?_⟩
    cases h : s.gameOver
    · obtain ⟨s', hs'⟩ : ∃ s', update cv r s = some s' := ⟨_, update_running cv r s h⟩
      have hsc := update_running_score cv r s s' h hs'
      have hle := countP_scoresNow_le_one cv r s hinv
      exact ⟨s', hs', by omega, by omega⟩
    · exact ⟨s, update_of_gameOver cv r s h, le_refl _, Nat.le_succ _⟩

/-- C18: in every state of a session, every pipe in the list has
`passed = true` if and only if `x + pipeWidth < bird.x`, has
`x + pipeWidth >= 0`, and has `bottomY = topHeight + 150`. -/
theorem session_pipes_flags (cv : Canvas) (r0 : ℚ) (s0 : GameState) (cs : List Call) :
    ∃ s, session cv r0 s0 cs = some s ∧
      ∀ p ∈ s.pipes, (p.passed = true ↔ p.x + pipeWidth < s.bird.x) ∧
        0 ≤ p.x + pipeWidth ∧ p.bottomY = p.topHeight + 150 := by
  obtain ⟨s, hs, hinv⟩ := session_inv cv r0 s0 cs
  refine ⟨s, hs, ?_⟩
  intro p hp
  exact ⟨hinv.passed_iff p hp, hinv.on_canvas p hp, hinv.gap p hp⟩

/-! ## The example session -/

theorem session_exCalls : session exCanvas 0 exOver exCalls = some exLate := by
  decide!

/-- The example session ends with `frameCount = 230`, two pipes generated,
one of them unmarked, and `score = 1 = 2 - 1`. -/
theorem session_score_eq_witness :
    ∃ s, session exCanvas 0 exOver exCalls = some s ∧ s.frameCount = 230 ∧
      s.pipes.countP (fun p => !p.passed) = 1 ∧ s.score = 1 ∧
      s.score = s.frameCount / 100 - s.pipes.countP (fun p => !p.passed) := by
  obtain ⟨s, hs, _, hsc, _⟩ := session_score_eq exCanvas 0 exOver exCalls
  have he : s = exLate := by
    rw [session_exCalls] at hs
    exact (Option.some.inj hs).symm
  subst he
  exact ⟨exLate, session_exCalls, rfl, rfl, rfl, hsc⟩

/-- The example session ends with the pipes at `x = 7` and `x = 307`, 300
apart. -/
theorem session_pipes_spaced_witness :
    ∃ s, session exCanvas 0 exOver exCalls = some s ∧
      s.pipes.map (fun p => p.x) = [7, 307] ∧
      s.pipes.Chain' (fun a b => b.x = a.x + 300) := by
  obtain ⟨s, hs, _, hchain, _⟩ := session_pipes_spaced exCanvas 0 exOver exCalls
  have he : s = exLate := by
    rw [session_exCalls] at hs
    exact (Option.some.inj hs).symm
  subst he
  exact ⟨exLate, session_exCalls, rfl, hchain⟩

/-- The example session ends with the pipe at `x = 7` marked (67 < 80) and
the pipe at `x = 307` not. -/
theorem session_pipes_flags_witness :
    ∃ s, session exCanvas 0 exOver exCalls = some s ∧
      s.pipes.map (fun p => p.passed) = [true, false] ∧
      ∀ p ∈ s.pipes, (p.passed = true ↔ p.x + pipeWidth < s.bird.x) ∧
        0 ≤ p.x + pipeWidth ∧ p.bottomY = p.topHeight + 150 := by
  obtain ⟨s, hs, hall⟩ := session_pipes_flags exCanvas 0 exOver exCalls
  have he : s = exLate := by
    rw [session_exCalls] at hs
    exact (Option.some.inj hs).symm
  subst he
  exact ⟨exLate, session_exCalls, rfl, hall⟩

/-! ## Rounding -/

theorem halvings_spec (fuel : Nat) : ∀ n, n ≤ fuel → n ≠ 0 →
    2 ^ halvings fuel n ≤ n ∧ n < 2 ^ (halvings fuel n + 1) := by
  induction fuel with
  | zero =>
    intro n h h0
    omega
  | succ f ih =>
    intro n h h0
    unfold halvings
    split_ifs with h2
    · have : n = 1 := by omega
      subst this
      simp
    · have hle : n / 2 ≤ f := by omega
      have hne : n / 2 ≠ 0 := by omega
      obtain ⟨h3, h4⟩ := ih (n / 2) hle hne
      rw [pow_succ] at h4 ⊢
      constructor
      · omega
      · rw [pow_succ] 
        omega


theorem natLog2_spec (n : Nat) (h0 : n ≠ 0) :
    2 ^ natLog2 n ≤ n ∧ n < 2 ^ (natLog2 n + 1) :=
  halvings_spec n n (le_refl n) h0

theorem log2Floor_le (x : ℚ) (hx : x ≠ 0) : (2 : ℚ) ^ log2Floor x ≤ |x| := by
  unfold log2Floor
  dsimp only
  split_ifs with h
  · exact h
  · have hN : x.num.natAbs ≠ 0 := by
      simpa using hx
    have hD : x.den ≠ 0 := x.den_nz
    obtain ⟨h1, _⟩ := natLog2_spec _ hN
    obtain ⟨_, h2⟩ := natLog2_spec _ hD
    have habs : |x| = (x.num.natAbs : ℚ) / (x.den : ℚ) := by
      conv_lhs => rw [← Rat.num_div_den x]
      rw [abs_div, Nat.cast_natAbs, Int.cast_abs]
      simp
    have e : (natLog2 x.num.natAbs : ℤ) - (natLog2 x.den : ℤ) - 1
        = (natLog2 x.num.natAbs : ℤ) - ((natLog2 x.den + 1 : ℕ) : ℤ) := by
      push_cast
      ring
    rw [habs, e, zpow_sub₀ (by norm_num : (2 : ℚ) ≠ 0), zpow_natCast, zpow_natCast,
      div_le_div_iff₀ (by positivity) (by exact_mod_cast Nat.pos_of_ne_zero hD)]
    have h1' : ((2 : ℚ) ^ natLog2 x.num.natAbs) ≤ (x.num.natAbs : ℚ) := by exact_mod_cast h1
    have h2' : (x.den : ℚ) ≤ (2 : ℚ) ^ (natLog2 x.den + 1) := by exact_mod_cast h2.le
    exact mul_le_mul h1' h2' (by positivity) (by positivity)

theorem roundHalfEven_intCast (m : ℤ) : roundHalfEven (m : ℚ) = m := by
  unfold roundHalfEven
  rw [Int.floor_intCast, sub_self, if_pos (by norm_num)]

/-- A multiple of 1/2 below `2 ^ 52` in magnitude is a double: rounding leaves
it as it is. -/
theorem fl64_half (n : ℤ) (hn : |n| < 2 ^ 53) : fl64 ((n : ℚ) / 2) = (n : ℚ) / 2 := by
  unfold fl64
  split_ifs with h0
  · exact h0.symm
  · dsimp only
    have hlt : |(n : ℚ) / 2| < (2 : ℚ) ^ (52 : ℤ) := by
      rw [abs_div, abs_two, div_lt_iff₀ (by norm_num), ← Int.cast_abs]
      have : ((|n| : ℤ) : ℚ) < ((2 ^ 53 : ℤ) : ℚ) := by exact_mod_cast hn
      push_cast at this
      norm_num at this ⊢
      linarith
    have hle := log2Floor_le _ h0
    have he0 : log2Floor ((n : ℚ) / 2) < 52 := by
      have := lt_of_le_of_lt hle hlt
      exact (zpow_lt_zpow_iff_right₀ (by norm_num : (1 : ℚ) < 2)).mp this
    have he : max (log2Floor ((n : ℚ) / 2)) (-1022) ≤ 51 := by
      rw [max_le_iff]
      constructor <;> omega
    obtain ⟨k, hk⟩ : ∃ k : ℕ, (51 : ℤ) - max (log2Floor ((n : ℚ) / 2)) (-1022) = (k : ℤ) :=
      ⟨_, (Int.toNat_of_nonneg (by omega)).symm⟩
    have hu : (2 : ℚ) ^ (max (log2Floor ((n : ℚ) / 2)) (-1022) - 52)
        = ((2 : ℚ) ^ k)⁻¹ / 2 := by
      have : max (log2Floor ((n : ℚ) / 2)) (-1022) - 52 = -(k : ℤ) - 1 := by omega
      rw [this, zpow_sub₀ (by norm_num : (2 : ℚ) ≠ 0), zpow_neg, zpow_natCast, zpow_one]
    have hm : (n : ℚ) / 2 / (((2 : ℚ) ^ k)⁻¹ / 2) = ((n * 2 ^ k : ℤ) : ℚ) := by
      push_cast
      field_simp
      ring
    rw [hu, hm, roundHalfEven_intCast]
    push_cast
    field_simp
    ring

theorem fl64_onHalfGrid (B : ℤ) (hB : B < 2 ^ 53) (x : ℚ) (hx : onHalfGrid B x) :
    fl64 x = x := by
  obtain ⟨n, hn, rfl⟩ := hx
  exact fl64_half n (lt_of_le_of_lt hn hB)

theorem onHalfGrid_add (B1 B2 : ℤ) (x y : ℚ) (hx : onHalfGrid B1 x) (hy : onHalfGrid B2 y) :
    onHalfGrid (B1 + B2) (x + y) := by
  obtain ⟨n, hn, rfl⟩ := hx
  obtain ⟨m, hm, rfl⟩ := hy
  refine ⟨n + m, le_trans (abs_add n m) (add_le_add hn hm), ?_⟩
  push_cast
  ring

theorem onHalfGrid_sub (B1 B2 : ℤ) (x y : ℚ) (hx : onHalfGrid B1 x) (hy : onHalfGrid B2 y) :
    onHalfGrid (B1 + B2) (x - y) := by
  obtain ⟨n, hn, rfl⟩ := hx
  obtain ⟨m, hm, rfl⟩ := hy
  refine ⟨n - m, le_trans (abs_sub n m) (add_le_add hn hm), ?_⟩
  push_cast
  ring

theorem onHalfGrid_mono (B1 B2 : ℤ) (h : B1 ≤ B2) (x : ℚ) (hx : onHalfGrid B1 x) :
    onHalfGrid B2 x := by
  obtain ⟨n, hn, rfl⟩ := hx
  exact ⟨n, le_trans hn h, rfl⟩

/-! ## The loop over the pipes in double arithmetic -/

theorem pipeBody64_at (s : GameState) (pre suf : List Pipe) (p : Pipe)
    (h : s.pipes = pre ++ p :: suf) :
    pipeBody64 pre.length s =
      some { pipeEffect64 p s with
             pipes := pre ++ ((if onScreen64 (afterFrame64 s.bird p)
                                then [afterFrame64 s.bird p] else []) ++ suf) } := by
  obtain ⟨b, ps, sc, go, fc, sd, fd, gs⟩ := s
  obtain ⟨px, pt, pb, pp⟩ := p
  simp only at h
  subst h
  simp only [pipeBody64, getElem?_at_length]
  have hkeep : (0 ≤ fl64 (fl64 (px - pipeSpeed) + pipeWidth)) ↔
      ¬ (fl64 (fl64 (px - pipeSpeed) + pipeWidth) < 0) := not_lt.symm
  by_cases hc : pipeCollision64 b ⟨fl64 (px - pipeSpeed), pt, pb, pp⟩ = true <;>
  by_cases hx : fl64 (fl64 (px - pipeSpeed) + pipeWidth) < b.x <;>
  by_cases hr : fl64 (fl64 (px - pipeSpeed) + pipeWidth) < 0 <;>
  cases pp <;>
  simp [pipeEffect64, afterFrame64, onScreen64, moved64, showGameOver, hc, hx, hr, hkeep,
    set_at_length, eraseIdx_at_length]

theorem pipeEffect64_pipes (p : Pipe) (s : GameState) (l : List Pipe) :
    pipeEffect64 p { s with pipes := l } = { pipeEffect64 p s with pipes := l } := by
  unfold pipeEffect64 showGameOver
  dsimp only
  split_ifs <;> rfl

theorem foldr_pipeEffect64_pipes (ps : List Pipe) (s : GameState) (l : List Pipe) :
    ps.foldr pipeEffect64 { s with pipes := l } = { ps.foldr pipeEffect64 s with pipes := l } := by
  induction ps with
  | nil => rfl
  | cons p ps ih => simp only [List.foldr_cons, ih, pipeEffect64_pipes]

theorem pipeEffect64_bird (p : Pipe) (s : GameState) : (pipeEffect64 p s).bird = s.bird := by
  unfold pipeEffect64 showGameOver
  dsimp only
  split_ifs <;> rfl

theorem foldr_pipeEffect64_bird (ps : List Pipe) (s : GameState) :
    (ps.foldr pipeEffect64 s).bird = s.bird := by
  induction ps with
  | nil => rfl
  | cons p ps ih => simp only [List.foldr_cons, pipeEffect64_bird, ih]

theorem pipeEffect64_gameOver (p : Pipe) (s : GameState) :
    (pipeEffect64 p s).gameOver = (s.gameOver || pipeCollision64 s.bird (moved64 p)) := by
  unfold pipeEffect64 showGameOver
  dsimp only
  split_ifs with h1 h2 h2 <;> simp [h2]

theorem foldr_pipeEffect64_gameOver (ps : List Pipe) (s : GameState) :
    (ps.foldr pipeEffect64 s).gameOver =
      (s.gameOver || ps.any (fun p => pipeCollision64 s.bird (moved64 p))) := by
  induction ps with
  | nil => simp
  | cons p ps ih =>
    rw [List.foldr_cons, pipeEffect64_gameOver, foldr_pipeEffect64_bird, ih, List.any_cons]
    cases s.gameOver <;> cases pipeCollision64 s.bird (moved64 p) <;> simp

/-- The loop of `update64` started at `n = pre.length` on the array
`pre ++ suf` returns the fold of `pipeEffect64` over `pre` from the right,
with `pre` processed in place. -/
theorem pipeLoop64_append (pre : List Pipe) :
    ∀ (suf : List Pipe) (s : GameState), s.pipes = pre ++ suf →
      pipeLoop64 pre.length s =
        some { pre.foldr pipeEffect64 s with
               pipes := (pre.map (afterFrame64 s.bird)).filter onScreen64 ++ suf } := by
  induction pre using List.reverseRecOn with
  | nil =>
    intro suf s h
    simp only [List.length_nil, pipeLoop64, List.foldr_nil, List.map_nil, List.filter_nil,
      List.nil_append]
    rw [← List.nil_append suf, ← h]
  | append_singleton pre p ih =>
    intro suf s h
    rw [List.append_assoc, List.singleton_append] at h
    rw [List.length_append, List.length_singleton, pipeLoop64, pipeBody64_at s pre suf p h,
      Option.some_bind, ih _ _ rfl, foldr_pipeEffect64_pipes]
    have hb : (pipeEffect64 p s).bird = s.bird := pipeEffect64_bird p s
    simp only [hb, List.foldr_append, List.foldr_cons, List.foldr_nil, List.map_append,
      List.map_cons, List.map_nil, List.filter_append, List.filter_cons, List.filter_nil,
      List.append_assoc]

theorem pipeSpawn64_bird (cv : Canvas) (r : ℚ) (s : GameState) :
    (pipeSpawn64 cv r s).bird = s.bird := by
  unfold pipeSpawn64 generatePipe64
  dsimp only
  split_ifs <;> rfl

theorem pipeSpawn64_gameOver (cv : Canvas) (r : ℚ) (s : GameState) :
    (pipeSpawn64 cv r s).gameOver = s.gameOver := by
  unfold pipeSpawn64 generatePipe64
  dsimp only
  split_ifs <;> rfl

/-- A frame of a running game in double arithmetic returns, with the bird of
the physics step and with `gameOver` set by the ground branch or by the
collision test of some pipe of the frame. -/
theorem update64_running (cv : Canvas) (r : ℚ) (s : GameState) (h : s.gameOver = false) :
    ∃ s', update64 cv r s = some s' ∧ s'.bird = (birdPhysics64 cv s).bird ∧
      s'.gameOver = ((birdPhysics64 cv s).gameOver ||
        (framePipes64 cv r s).any
          (fun p => pipeCollision64 (birdPhysics64 cv s).bird (moved64 p))) := by
  have key := pipeLoop64_append (framePipes64 cv r s) [] (pipeSpawn64 cv r (birdPhysics64 cv s))
    (by simp [framePipes64])
  have hu : update64 cv r s =
      pipeLoop64 (framePipes64 cv r s).length (pipeSpawn64 cv r (birdPhysics64 cv s)) := by
    unfold update64
    rw [h]
    simp only [Bool.false_eq_true, if_false, framePipes64]
  rw [hu, key]
  refine ⟨_, rfl, ?_, ?_⟩
  · simp only [foldr_pipeEffect64_bird, pipeSpawn64_bird]
  · simp only [foldr_pipeEffect64_gameOver, pipeSpawn64_bird, pipeSpawn64_gameOver]

/-! ## Frames on the half-integer grid -/

theorem birdPhysics64_eq (cv : Canvas) (s : GameState)
    (hy : onHalfGrid (2 ^ 41) s.bird.y) (hv : onHalfGrid (2 ^ 41) s.bird.velocity)
    (hh : onHalfGrid (2 ^ 41) s.bird.height) (hH : onHalfGrid (2 ^ 41) cv.height) :
    birdPhysics64 cv s = birdPhysics cv s := by
  have hg : onHalfGrid 1 gravity := ⟨1, by norm_num, by simp only [gravity]; norm_num⟩
  have g1 := onHalfGrid_add _ _ _ _ hv hg
  have g2 := onHalfGrid_add _ _ _ _ hy g1
  have g3 := onHalfGrid_add _ _ _ _ g2 hh
  have g4 := onHalfGrid_sub _ _ _ _ hH hh
  have e1 := fl64_onHalfGrid _ (by norm_num) _ g1
  have e2 := fl64_onHalfGrid _ (by norm_num) _ g2
  have e3 := fl64_onHalfGrid _ (by norm_num) _ g3
  have e4 := fl64_onHalfGrid _ (by norm_num) _ g4
  simp only [birdPhysics64, birdPhysics, e1, e2, e3, e4]

theorem birdPhysics_y_onHalfGrid (cv : Canvas) (s : GameState)
    (hy : onHalfGrid (2 ^ 41) s.bird.y) (hv : onHalfGrid (2 ^ 41) s.bird.velocity)
    (hh : onHalfGrid (2 ^ 41) s.bird.height) (hH : onHalfGrid (2 ^ 41) cv.height) :
    onHalfGrid (2 ^ 43) (birdPhysics cv s).bird.y := by
  have hg : onHalfGrid 1 gravity := ⟨1, by norm_num, by simp only [gravity]; norm_num⟩
  have g2 := onHalfGrid_add _ _ _ _ hy (onHalfGrid_add _ _ _ _ hv hg)
  have g4 := onHalfGrid_sub _ _ _ _ hH hh
  have g0 : onHalfGrid (2 ^ 43) (0 : ℚ) := ⟨0, by norm_num, by norm_num⟩
  unfold birdPhysics showGameOver
  dsimp only
  split_ifs
  · exact g0
  · exact onHalfGrid_mono _ _ (by norm_num) _ g4
  · exact g0
  · exact onHalfGrid_mono _ _ (by norm_num) _ g2

theorem framePipes64_mem (cv : Canvas) (r : ℚ) (s : GameState) (p : Pipe)
    (hp : p ∈ framePipes64 cv r s) : p ∈ s.pipes ∨ p.x = cv.width := by
  have hpipes : (birdPhysics64 cv s).pipes = s.pipes := by
    unfold birdPhysics64 showGameOver
    dsimp only
    split_ifs <;> rfl
  unfold framePipes64 pipeSpawn64 at hp
  dsimp only at hp
  split_ifs at hp
  · unfold generatePipe64 at hp
    dsimp only at hp
    rw [hpipes] at hp
    rcases List.mem_append.mp hp with hp | hp
    · exact Or.inl hp
    · rw [List.mem_singleton] at hp
      subst hp
      exact Or.inr rfl
  · rw [hpipes] at hp
    exact Or.inl hp

theorem pipeCollision64_moved64_eq (b : Bird) (p : Pipe)
    (hbx : onHalfGrid (2 ^ 41) b.x) (hbw : onHalfGrid (2 ^ 41) b.width)
    (hby : onHalfGrid (2 ^ 43) b.y) (hbh : onHalfGrid (2 ^ 41) b.height)
    (hpx : onHalfGrid (2 ^ 41) p.x) :
    pipeCollision64 b (moved64 p) = pipeCollision b (moved p) := by
  have h3 : onHalfGrid 6 pipeSpeed := ⟨6, by norm_num, by simp only [pipeSpeed]; norm_num⟩
  have h60 : onHalfGrid 120 pipeWidth := ⟨120, by norm_num, by simp only [pipeWidth]; norm_num⟩
  have g1 := onHalfGrid_sub _ _ _ _ hpx h3
  have g2 := onHalfGrid_add _ _ _ _ g1 h60
  have g3 := onHalfGrid_add _ _ _ _ hbx hbw
  have g4 := onHalfGrid_add _ _ _ _ hby hbh
  have e1 := fl64_onHalfGrid _ (by norm_num) _ g1
  have e2 := fl64_onHalfGrid _ (by norm_num) _ g2
  have e3 := fl64_onHalfGrid _ (by norm_num) _ g3
  have e4 := fl64_onHalfGrid _ (by norm_num) _ g4
  simp only [pipeCollision64, pipeCollision, moved64, moved, e1, e2, e3, e4]

/-! ## The claims that depend on rounding -/

/-- C1 as stated fails in double arithmetic: the bird of `exTieHit` ends the
physics step at `y = 230 + 2 ^ -45`, the pipe moves from 100 to 97, and the
bird's rectangle overlaps the bottom rectangle `[97, 157] x [260, 500]` in a
strip `2 ^ -45` high; the code's sum `bird.y + bird.height` rounds to 260, the
test `260 > 260` is false, and `update` returns with `gameOver` false. -/
theorem update64_overlap_counterexample :
    exTieHit.gameOver = false ∧
      (update64 exCanvas 0 exTieHit).map (fun s' => (s'.gameOver, s'.bird, s'.pipes))
        = some (false,
            { x := 80, y := 230 + 1 / 2 ^ 45, width := 35, height := 30, velocity := 0 },
            [{ x := 97, topHeight := 110, bottomY := 260, passed := false }]) ∧
      (birdRect { x := 80, y := 230 + 1 / 2 ^ 45, width := 35, height := 30, velocity := 0 }).overlaps
        (bottomRect exCanvas { x := 97, topHeight := 110, bottomY := 260, passed := false }) := by
  decide!

/-- C1, as the code has it: in a frame of a running game in which the bird's
`x`, `y`, `width`, `height` and `velocity`, the `x` of every pipe and the
width and height of the canvas are multiples of 1/2 of magnitude at most
`2 ^ 40`, `update` returns, its bird is the clamped bird of the physics step,
and if that bird's rectangle overlaps with positive area the top or the
bottom rectangle of any pipe of the frame (one generated in this frame
included) as it stands after the move left by `pipeSpeed`, then `gameOver` is
set. -/
theorem update64_overlap_sets_gameOver (cv : Canvas) (r : ℚ) (s : GameState)
    (h : s.gameOver = false)
    (hbx : onHalfGrid (2 ^ 41) s.bird.x) (hby : onHalfGrid (2 ^ 41) s.bird.y)
    (hbw : onHalfGrid (2 ^ 41) s.bird.width) (hbh : onHalfGrid (2 ^ 41) s.bird.height)
    (hbv : onHalfGrid (2 ^ 41) s.bird.velocity)
    (hW : onHalfGrid (2 ^ 41) cv.width) (hH : onHalfGrid (2 ^ 41) cv.height)
    (hpx : ∀ p ∈ s.pipes, onHalfGrid (2 ^ 41) p.x) :
    ∃ s', update64 cv r s = some s' ∧ s'.bird = (birdPhysics64 cv s).bird ∧
      ∀ p ∈ framePipes64 cv r s,
        ((birdRect s'.bird).overlaps (topRect (moved p)) ∨
          (birdRect s'.bird).overlaps (bottomRect cv (moved p))) →
        s'.gameOver = true := by
  obtain ⟨s', hs, hb, hgo⟩ := update64_running cv r s h
  refine ⟨s', hs, hb, ?_⟩
  intro p hp hov
  have hphys := birdPhysics64_eq cv s hby hbv hbh hH
  have hgrid : onHalfGrid (2 ^ 41) p.x := by
    rcases framePipes64_mem cv r s p hp with h1 | h1
    · exact hpx p h1
    · rw [h1]
      exact hW
  have hbx' : onHalfGrid (2 ^ 41) (birdPhysics cv s).bird.x := by
    rw [birdPhysics_bird_x]
    exact hbx
  have hbw' : onHalfGrid (2 ^ 41) (birdPhysics cv s).bird.width := by
    rw [birdPhysics_bird_width]
    exact hbw
  have hbh' : onHalfGrid (2 ^ 41) (birdPhysics cv s).bird.height := by
    rw [birdPhysics_bird_height]
    exact hbh
  have hby' := birdPhysics_y_onHalfGrid cv s hby hbv hbh hH
  rw [hb, hphys] at hov
  rw [hgo, Bool.or_eq_true, List.any_eq_true]
  refine Or.inr ⟨p, hp, ?_⟩
  rw [hphys, pipeCollision64_moved64_eq _ p hbx' hbw' hby' hbh' hgrid]
  exact pipeCollision_of_overlaps cv _ _ hov

/-- The frame of `exHit`, whose numbers are integers, returns with `gameOver`
set: its bird overlaps the top rectangle of the pipe moved from 100 to 97. -/
theorem update64_overlap_sets_gameOver_witness :
    exHit.gameOver = false ∧
      ∃ s', update64 exCanvas 0 exHit = some s' ∧ s'.gameOver = true := by
  obtain ⟨s', hs, hb, hall⟩ := update64_overlap_sets_gameOver exCanvas 0 exHit rfl
    ⟨160, by norm_num, by decide!⟩ ⟨80, by norm_num, by decide!⟩
    ⟨70, by norm_num, by decide!⟩ ⟨60, by norm_num, by decide!⟩
    ⟨0, by norm_num, by decide!⟩ ⟨800, by norm_num, by decide!⟩
    ⟨1000, by norm_num, by decide!⟩
    (by
      intro p hp
      simp only [exHit, List.mem_singleton] at hp
      subst hp
      exact ⟨200, by norm_num, by norm_num⟩)
  refine ⟨rfl, s', hs, hall ⟨100, 120, 270, false⟩ (by decide!) (Or.inl ?_)⟩
  rw [hb]
  decide!

/-- C3 as stated fails in double arithmetic: on the canvas 530 high the bird
of `exTieGround` ends the physics step at `y = 500 + 2 ^ -44`; the code's sum
`bird.y + bird.height` rounds to 530, the ground test `530 > 530` is false,
and `update` returns with `gameOver` false and `bird.y` above
`canvas.height - bird.height = 500`. -/
theorem update64_bird_y_counterexample :
    exTieGround.gameOver = false ∧ exTieGround.bird.height ≤ exCanvas530.height ∧
      (update64 exCanvas530 0 exTieGround).map (fun s' => (s'.gameOver, s'.bird.y, s'.bird.height))
        = some (false, 500 + 1 / 2 ^ 44, 30) ∧
      ¬ ((500 : ℚ) + 1 / 2 ^ 44 ≤ exCanvas530.height - 30) := by
  decide!

/-- C3, as the code has it: in a frame of a running game in which the bird's
`y`, `velocity` and `height` and the height of the canvas are multiples of
1/2 of magnitude at most `2 ^ 40`, whatever the velocity among them, on a
canvas at least as high as the bird, `update` returns with
`0 <= bird.y <= canvas.height - bird.height` (the height of the bird is not
changed by the frame). -/
theorem update64_bird_y_within_canvas (cv : Canvas) (r : ℚ) (s : GameState)
    (h : s.gameOver = false) (hHh : s.bird.height ≤ cv.height)
    (hby : onHalfGrid (2 ^ 41) s.bird.y) (hbv : onHalfGrid (2 ^ 41) s.bird.velocity)
    (hbh : onHalfGrid (2 ^ 41) s.bird.height) (hH : onHalfGrid (2 ^ 41) cv.height) :
    ∃ s', update64 cv r s = some s' ∧ s'.bird.height = s.bird.height ∧
      0 ≤ s'.bird.y ∧ s'.bird.y ≤ cv.height - s'.bird.height := by
  obtain ⟨s', hs, hb, _⟩ := update64_running cv r s h
  have hphys := birdPhysics64_eq cv s hby hbv hbh hH
  have hy := birdPhysics_y_bounds cv s hHh
  rw [hphys] at hb
  refine ⟨s', hs, ?_, ?_, ?_⟩
  · rw [hb, birdPhysics_bird_height]
  · rw [hb]
    exact hy.1
  · rw [hb, birdPhysics_bird_height]
    exact hy.2

/-- The frame of `exFall`, whose numbers are integers and whose bird would
leave the canvas at the bottom, returns with the bird inside the canvas. -/
theorem update64_bird_y_within_canvas_witness :
    exFall.gameOver = false ∧ exFall.bird.height ≤ exCanvas.height ∧
      ∃ s', update64 exCanvas 0 exFall = some s' ∧ s'.bird.height = exFall.bird.height ∧
        0 ≤ s'.bird.y ∧ s'.bird.y ≤ exCanvas.height - s'.bird.height :=
  ⟨rfl, by decide!,
    update64_bird_y_within_canvas exCanvas 0 exFall rfl (by decide!)
      ⟨930, by norm_num, by decide!⟩ ⟨16, by norm_num, by decide!⟩
      ⟨60, by norm_num, by decide!⟩ ⟨1000, by norm_num, by decide!⟩⟩

/-! ## The final score -/

theorem scoresNow_false_of_pipeCollision (b : Bird) (p : Pipe)
    (h : pipeCollision b (moved p) = true) : scoresNow b p = false := by
  simp only [pipeCollision, Bool.and_eq_true, decide_eq_true_eq] at h
  have h1 : ¬ ((moved p).x + pipeWidth < b.x) := not_lt.mpr (le_of_lt h.1.1)
  simp [scoresNow, h1]

theorem foldr_pipeEffect_latch (ps : List Pipe) (s : GameState)
    (h0 : s.gameOver = true → s.finalScoreDisplay = s.score) :
    (ps.foldr pipeEffect s).gameOver = true →
      (ps.foldr pipeEffect s).finalScoreDisplay + scoredAfterGameOver s.bird ps
        = (ps.foldr pipeEffect s).score := by
  induction ps with
  | nil =>
    intro hg
    simp only [List.foldr_nil, scoredAfterGameOver, List.takeWhile_nil, List.countP_nil,
      Nat.add_zero] at hg ⊢
    exact h0 hg
  | cons p t ih =>
    intro hg
    rw [List.foldr_cons] at hg ⊢
    have hb : (t.foldr pipeEffect s).bird = s.bird := foldr_pipeEffect_bird t s
    by_cases hc : pipeCollision s.bird (moved p) = true
    · have hsc := scoresNow_false_of_pipeCollision s.bird p hc
      have hcnt : scoredAfterGameOver s.bird (p :: t) = 0 := by
        simp [scoredAfterGameOver, List.takeWhile_cons, hc]
      rw [hcnt]
      simp [pipeEffect, hb, hc, hsc, showGameOver]
    · have hc' : pipeCollision s.bird (moved p) = false := by simpa using hc
      have hgo : (t.foldr pipeEffect s).gameOver = true := by
        rw [pipeEffect_gameOver, hb, hc', Bool.or_false] at hg
        exact hg
      have ih' := ih hgo
      have hcnt : scoredAfterGameOver s.bird (p :: t)
          = scoredAfterGameOver s.bird t + (if scoresNow s.bird p = true then 1 else 0) := by
        simp only [scoredAfterGameOver, List.takeWhile_cons, hc', Bool.not_false, if_true,
          List.countP_cons]
      rw [hcnt]
      by_cases hsc : scoresNow s.bird p = true
      · simp only [pipeEffect, hb, hc', hsc, if_true, Bool.false_eq_true, if_false]
        omega
      · simp only [pipeEffect, hb, hc', hsc, Bool.false_eq_true, if_false]
        omega

theorem birdPhysics_latch (cv : Canvas) (s : GameState) (h : s.gameOver = false) :
    (birdPhysics cv s).gameOver = true →
      (birdPhysics cv s).finalScoreDisplay = (birdPhysics cv s).score := by
  unfold birdPhysics showGameOver
  dsimp only
  split_ifs <;> simp [h]

theorem pipeSpawn_finalScoreDisplay (cv : Canvas) (r : ℚ) (s : GameState) :
    (pipeSpawn cv r s).finalScoreDisplay = s.finalScoreDisplay := by
  unfold pipeSpawn generatePipe
  dsimp only
  split_ifs <;> rfl

/-- C13 as stated fails: the session `exNarrowCalls` on the canvas `exNarrow`
ends in a running game with `frameCount = 99`; in the next frame the ground
branch calls `showGameOver` while `score` is 0, the pipe generated at
`x = 20` moves to 17 and is scored, and `update` returns with `gameOver` set,
`score = 1`, the score node showing 1 and the final-score node showing 0. -/
theorem update_finalScore_counterexample :
    session exNarrow 0 exOver exNarrowCalls = some exNarrowPre ∧
      exNarrowPre.gameOver = false ∧
      (update exNarrow (2 / 5) exNarrowPre).map
          (fun s' => (s'.gameOver, s'.score, s'.scoreDisplay, s'.finalScoreDisplay))
        = some (true, 1, 1, 0) := by
  decide!

/-- C13, as the code has it: in a frame of a running game, if `update`
returns with `gameOver` set, the number in the final-score node is the score
at the end of the frame minus the number of pipes scored after the last call
of `showGameOver` in that frame; it is the score at the end of the frame when
no pipe is scored after that call. -/
theorem update_finalScore_latched (cv : Canvas) (r : ℚ) (s : GameState)
    (h : s.gameOver = false) :
    ∃ s', update cv r s = some s' ∧
      (s'.gameOver = true →
        s'.finalScoreDisplay + scoredAfterGameOver s'.bird (framePipes cv r s) = s'.score ∧
        (scoredAfterGameOver s'.bird (framePipes cv r s) = 0 →
          s'.finalScoreDisplay = s'.score)) := by
  obtain ⟨s', hs⟩ : ∃ s', update cv r s = some s' := ⟨_, update_running cv r s h⟩
  have hb := update_running_bird cv r s s' h hs
  refine ⟨s', hs, ?_⟩
  intro hgo
  have h0 : (pipeSpawn cv r (birdPhysics cv s)).gameOver = true →
      (pipeSpawn cv r (birdPhysics cv s)).finalScoreDisplay
        = (pipeSpawn cv r (birdPhysics cv s)).score := by
    rw [pipeSpawn_gameOver, pipeSpawn_finalScoreDisplay, pipeSpawn_score]
    exact birdPhysics_latch cv s h
  have key := foldr_pipeEffect_latch (framePipes cv r s) _ h0
  rw [pipeSpawn_bird] at key
  rw [update_running cv r s h] at hs
  cases hs
  have hl := key hgo
  refine ⟨?_, ?_⟩
  · rw [hb]
    exact hl
  · intro hz
    rw [hb] at hz
    rw [hz, Nat.add_zero] at hl
    exact hl

/-- In the frame of `exFallScore` (ground, then a pipe scored) and in the
frame of `exHitScore` (collision at index 1, then the pipe at index 0 scored)
one pipe is scored after the last call of `showGameOver`, and the final-score
node shows 0 for a score of 1. -/
theorem update_finalScore_latched_witness :
    (exFallScore.gameOver = false ∧
      ∃ s', update exCanvas 0 exFallScore = some s' ∧ s'.gameOver = true ∧
        s'.finalScoreDisplay + 1 = s'.score) ∧
    (exHitScore.gameOver = false ∧
      ∃ s', update exCanvas 0 exHitScore = some s' ∧ s'.gameOver = true ∧
        s'.finalScoreDisplay + 1 = s'.score) := by
  obtain ⟨s1, hs1, hl1⟩ := update_finalScore_latched exCanvas 0 exFallScore rfl
  obtain ⟨s2, hs2, hl2⟩ := update_finalScore_latched exCanvas 0 exHitScore rfl
  have hg1 : s1.gameOver = true := by
    rw [update_running_gameOver exCanvas 0 exFallScore s1 rfl hs1]
    decide!
  have hg2 : s2.gameOver = true := by
    rw [update_running_gameOver exCanvas 0 exHitScore s2 rfl hs2]
    decide!
  have e1 : scoredAfterGameOver s1.bird (framePipes exCanvas 0 exFallScore) = 1 := by
    rw [update_running_bird exCanvas 0 exFallScore s1 rfl hs1]
    decide!
  have e2 : scoredAfterGameOver s2.bird (framePipes exCanvas 0 exHitScore) = 1 := by
    rw [update_running_bird exCanvas 0 exHitScore s2 rfl hs2]
    decide!
  refine ⟨⟨rfl, s1, hs1, hg1, ?_⟩, ⟨rfl, s2, hs2, hg2, ?_⟩⟩
  · rw [← e1]
    exact (hl1 hg1).1
  · rw [← e2]
    exact (hl2 hg2).1

end MISProject
